import Mathlib

/-!
# LogJoinService

A shallow embedding of `src/tracker/logjoinservice.cc`: the stream clock
(`streamTime`), the merge of query and item-visit events into sessions
(`findOrCreateSession`, `insertQuery`, `insertItemVisit`), the flush decision
(`maybeFlushSession`), the flush pass over the registry (`flush`) and the entry point
for log lines (`insertLogline`).

Conventions.
* `fnord::DateTime` and `last_seen_unix_micros` are `uint64_t` microsecond counts; they
  are natural numbers here, and arithmetic that can wrap is taken modulo `2 ^ 64`.
* `std::string` is `String`; the maps `sessions_`, `queries` and `item_visits` are
  association lists (a new key is appended, an existing key is updated in place).
* Calls on the output `out_` are appended to a log of `Emission`s.
* The mutexes are not modelled: every operation runs to completion on its own.
-/

namespace cm

/-! ## Machine arithmetic -/

/-- Number of values of a `uint64_t`. -/
def u64 : Nat := 2 ^ 64

/-- Subtraction of two `uint64_t` values: it wraps around modulo `2 ^ 64`. -/
def sub64 (a b : Nat) : Nat := (a % u64 + u64 - b % u64) % u64

/-- Multiplication of two `uint64_t` values: it wraps around modulo `2 ^ 64`. -/
def mul64 (a b : Nat) : Nat := (a * b) % u64

/-- Value of `fnord::DateTime::kMicrosPerSecond`: microseconds per second. -/
def kMicrosPerSecond : Nat := 1000000

/-! ## Data model -/

/-- Decoded key/value parameters of a log line (`fnord::URI::ParamList`). -/
abbrev ParamList := List (String × String)

/-- A query event of a session: `time`, `flushed` and the merged attributes. -/
structure TrackedQuery where
  time : Nat
  flushed : Bool
  attrs : ParamList
deriving DecidableEq, Repr

/-- An item-visit event of a session. -/
structure TrackedItemVisit where
  time : Nat
  attrs : ParamList
deriving DecidableEq, Repr

/-- State of one user: tenant, queries and item visits by event id, `last_seen`. -/
structure TrackedSession where
  customer : String
  queries : List (String × TrackedQuery)
  item_visits : List (String × TrackedItemVisit)
  last_seen_unix_micros : Nat
deriving DecidableEq, Repr

/-- A call on the output `out_` (`LogJoinOutput`). -/
inductive Emission where
  | recordJoinedQuery (customer uid eid : String) (query : TrackedQuery)
  | recordJoinedItemVisit (customer uid eid : String) (visit : TrackedItemVisit)
  | recordJoinedSession (customer uid : String) (session : TrackedSession)
deriving DecidableEq, Repr

/-- The members of `LogJoinService`: the registry `sessions_`, the watermark
`stream_clock_` and the log of the calls made on `out_`. -/
structure LogJoinService where
  sessions_ : List (String × TrackedSession)
  stream_clock_ : Nat
  out_ : List Emission
deriving DecidableEq, Repr

/-- Declarations of `logjoinservice.h` and `TrackedSession.h` that the functions below
use and that are not among the sources: the two timeout constants (in seconds) and
`TrackedSession::update`. They are parameters of the embedding. -/
structure Decls where
  kSessionIdleTimeoutSeconds : Nat
  kMaxQueryClickDelaySeconds : Nat
  update : TrackedSession → TrackedSession

/-- The threshold `kSessionIdleTimeoutSeconds * fnord::DateTime::kMicrosPerSecond`. -/
def Decls.sessionIdleTimeout (d : Decls) : Nat :=
  mul64 d.kSessionIdleTimeoutSeconds kMicrosPerSecond

/-- The threshold `kMaxQueryClickDelaySeconds * fnord::DateTime::kMicrosPerSecond`. -/
def Decls.maxQueryClickDelay (d : Decls) : Nat :=
  mul64 d.kMaxQueryClickDelaySeconds kMicrosPerSecond

/-! ## Association lists -/

/-- Replace the value stored under key `k`, if there is one (`iter->second = v`). -/
def setEntry {β : Type} (k : String) (v : β) : List (String × β) → List (String × β)
  | [] => []
  | (k1, v1) :: rest => if k1 = k then (k1, v) :: rest else (k1, v1) :: setEntry k v rest

/-- The keys of an association list, in iteration order. -/
def keys {β : Type} (m : List (String × β)) : List String := m.map Prod.fst

/-! ## Stream clock -/

/-- The constructor: an empty registry and `stream_clock_(0)`. -/
def LogJoinService.new : LogJoinService :=
  { sessions_ := [], stream_clock_ := 0, out_ := [] }

/-- `LogJoinService::streamTime`: raise the watermark to `time` when `time` is larger,
and return the watermark. -/
def streamTime (svc : LogJoinService) (time : Nat) : Nat × LogJoinService :=
  let svc1 := if time > svc.stream_clock_ then { svc with stream_clock_ := time } else svc
  (svc1.stream_clock_, svc1)

/-- A run of `streamTime` calls, one per timestamp, from left to right. -/
def streamTimes (svc : LogJoinService) (times : List Nat) : LogJoinService :=
  times.foldl (fun s t => (streamTime s t).2) svc

/-! ## Merge -/

/-- Store the value `v` under the attribute `k`: an attribute that is already populated
is overwritten, a new one is appended. -/
def setAttr (k v : String) : ParamList → ParamList
  | [] => [(k, v)]
  | (k1, v1) :: rest => if k1 = k then (k1, v) :: rest else (k1, v1) :: setAttr k v rest

/-- Attribute-level union of `old` with `new`, the later value winning. -/
def mergeAttrs (old new : ParamList) : ParamList :=
  new.foldl (fun acc kv => setAttr kv.1 kv.2 acc) old

/-- Modelled from the spec: `TrackedQuery::merge` is declared in `logjoin/TrackedQuery.h`,
which is not among the sources. Spec 4.4: a record that is present and not yet flushed
folds the new event's attributes into the existing record (attribute-level union, a
later-arriving value overwrites); a record that is already flushed rejects the event. -/
def TrackedQuery.merge (self other : TrackedQuery) : TrackedQuery :=
  if self.flushed then self
  else { self with attrs := mergeAttrs self.attrs other.attrs }

/-- Modelled from the spec: `TrackedItemVisit::merge` is not among the sources. Spec 3 and
4.4: an item visit is analogous to a query and has no flush state of its own, so the new
event's attributes are folded into the existing record. -/
def TrackedItemVisit.merge (self other : TrackedItemVisit) : TrackedItemVisit :=
  { self with attrs := mergeAttrs self.attrs other.attrs }

/-! ## Session registry and inserts -/

/-- The session `new TrackedSession()` of `findOrCreateSession`. -/
def TrackedSession.fresh (customer : String) : TrackedSession :=
  { customer := customer, queries := [], item_visits := [], last_seen_unix_micros := 0 }

/-- `LogJoinService::findOrCreateSession`: the session stored under `uid`, after adding a
fresh one when there is none. Returns the registry and the session found. -/
def findOrCreateSession (svc : LogJoinService) (customer uid : String) :
    LogJoinService × TrackedSession :=
  match svc.sessions_.lookup uid with
  | none =>
    let session := TrackedSession.fresh customer
    ({ svc with sessions_ := svc.sessions_ ++ [(uid, session)] }, session)
  | some session => (svc, session)

/-- The body of `insertQuery` on the session found: insert or merge under `eid`, then
raise `last_seen_unix_micros`. -/
def TrackedSession.insertQuery (session : TrackedSession) (eid : String)
    (query : TrackedQuery) : TrackedSession :=
  let session1 :=
    match session.queries.lookup eid with
    | none => { session with queries := session.queries ++ [(eid, query)] }
    | some q => { session with queries := setEntry eid (q.merge query) session.queries }
  if query.time > session1.last_seen_unix_micros then
    { session1 with last_seen_unix_micros := query.time }
  else session1

/-- The body of `insertItemVisit` on the session found. -/
def TrackedSession.insertItemVisit (session : TrackedSession) (eid : String)
    (visit : TrackedItemVisit) : TrackedSession :=
  let session1 :=
    match session.item_visits.lookup eid with
    | none => { session with item_visits := session.item_visits ++ [(eid, visit)] }
    | some v => { session with item_visits := setEntry eid (v.merge visit) session.item_visits }
  if visit.time > session1.last_seen_unix_micros then
    { session1 with last_seen_unix_micros := visit.time }
  else session1

/-- `LogJoinService::insertQuery`. -/
def insertQuery (svc : LogJoinService) (customer uid eid : String) (query : TrackedQuery) :
    LogJoinService :=
  let r := findOrCreateSession svc customer uid
  { r.1 with sessions_ := setEntry uid (r.2.insertQuery eid query) r.1.sessions_ }

/-- `LogJoinService::insertItemVisit`: the merge, then the call on `out_`. -/
def insertItemVisit (svc : LogJoinService) (customer uid eid : String)
    (visit : TrackedItemVisit) : LogJoinService :=
  let r := findOrCreateSession svc customer uid
  { r.1 with
    sessions_ := setEntry uid (r.2.insertItemVisit eid visit) r.1.sessions_
    out_ := r.1.out_ ++ [Emission.recordJoinedItemVisit customer uid eid visit] }

/-! ## Flush decision -/

/-- The test of the loop of `maybeFlushSession`: the query is not flushed and
`stream_time - query.time`, as `uint64_t`, exceeds the click delay. -/
def queryDue (d : Decls) (stream_time : Nat) (query : TrackedQuery) : Bool :=
  !query.flushed && decide (sub64 stream_time query.time > d.maxQueryClickDelay)

/-- The loop of `maybeFlushSession` over `session->queries`: every due query gets
`flushed = true` and is pushed on the vector `flushed`. Returns the queries after the loop
and that vector (event id and the query pointed to, as it is after the loop). -/
def markQueries (d : Decls) (stream_time : Nat) :
    List (String × TrackedQuery) → List (String × TrackedQuery) × List (String × TrackedQuery)
  | [] => ([], [])
  | (eid, query) :: rest =>
    let r := markQueries d stream_time rest
    if queryDue d stream_time query then
      ((eid, { query with flushed := true }) :: r.1, (eid, { query with flushed := true }) :: r.2)
    else ((eid, query) :: r.1, r.2)

/-- What `*flushed_query.second` reads when the `recordJoinedQuery` calls are made: the query stored
under `eid` in the session (after `update`); `marked` is what the loop left there. -/
def derefQuery (session : TrackedSession) (eid : String) (marked : TrackedQuery) :
    TrackedQuery :=
  (session.queries.lookup eid).getD marked

/-- Result of `maybeFlushSession`: the value returned, the session as the call leaves it
and the calls made on `out_`, in order. -/
structure FlushDecision where
  do_flush : Bool
  session : TrackedSession
  out : List Emission
deriving DecidableEq, Repr

/-- `LogJoinService::maybeFlushSession`. -/
def maybeFlushSession (d : Decls) (uid : String) (session : TrackedSession)
    (stream_time : Nat) : FlushDecision :=
  if stream_time % u64 < session.last_seen_unix_micros then
    { do_flush := false, session := session, out := [] }
  else
    let tdiff := sub64 stream_time session.last_seen_unix_micros
    let do_flush := decide (tdiff > d.sessionIdleTimeout)
    let marked := markQueries d stream_time session.queries
    let do_update := do_flush || !marked.2.isEmpty
    let session1 := { session with queries := marked.1 }
    let session2 := if do_update then d.update session1 else session1
    let outQueries := marked.2.map (fun fq =>
      Emission.recordJoinedQuery session2.customer uid fq.1 (derefQuery session2 fq.1 fq.2))
    let outSession :=
      if do_flush then [Emission.recordJoinedSession session2.customer uid session2] else []
    { do_flush := do_flush, session := session2, out := outQueries ++ outSession }

/-! ## Flush pass -/

/-- How a run of `flush` ends. -/
inductive Run (σ : Type) where
  /-- The loop ran to `sessions_.end()`. -/
  | completed (s : σ)
  /-- The loop reached `++iter` on an iterator that `sessions_.erase(iter)` had
  invalidated, in the state `s`: what the program does from there is undefined. -/
  | undefinedBehaviour (s : σ)
deriving DecidableEq, Repr

/-- The loop of `flush`: `done` are the entries the iterator has passed, the list argument
those from the iterator on. A session that `maybeFlushSession` reports flushed is erased
through the loop's own iterator, and the loop then increments that iterator. -/
def flushLoop (d : Decls) (stream_time : Nat) (clock : Nat) :
    List (String × TrackedSession) → List (String × TrackedSession) → List Emission →
    Run LogJoinService
  | done, [], out => Run.completed { sessions_ := done, stream_clock_ := clock, out_ := out }
  | done, (uid, session) :: rest, out =>
    let r := maybeFlushSession d uid session stream_time
    if r.do_flush then
      Run.undefinedBehaviour
        { sessions_ := done ++ rest, stream_clock_ := clock, out_ := out ++ r.out }
    else flushLoop d stream_time clock (done ++ [(uid, r.session)]) rest (out ++ r.out)

/-- `LogJoinService::flush`. -/
def flush (d : Decls) (svc : LogJoinService) (stream_time : Nat) : Run LogJoinService :=
  flushLoop d stream_time svc.stream_clock_ [] svc.sessions_ svc.out_

/-! ## The absent `TrackedSession::update` -/

/-- Event id, `time` and `flushed` of every query of a map, in iteration order. -/
def queryStates (qs : List (String × TrackedQuery)) : List (String × Nat × Bool) :=
  qs.map (fun p => (p.1, p.2.time, p.2.flushed))

/-- The assumption under which statements about the session after `session->update()` are
made: `update` may rewrite the attributes of queries and item visits, and it keeps the
tenant, `last_seen_unix_micros`, the event ids of both maps and every query's `time` and
`flushed`. -/
def UpdateFrame (update : TrackedSession → TrackedSession) : Prop :=
  ∀ s : TrackedSession,
    (update s).customer = s.customer ∧
    (update s).last_seen_unix_micros = s.last_seen_unix_micros ∧
    keys (update s).item_visits = keys s.item_visits ∧
    queryStates (update s).queries = queryStates s.queries

/-- Modelled from the spec: `TrackedSession::update` is declared in
`logjoin/TrackedSession.h`, which is not among the sources. The specification lets the
Flush Policy change the `flushed` status of queries and nothing else of a session
(section 2: it "mutates their flushed status, and triggers emission"; section 4.5 lists
the marking of due queries as the only change), so the `update` step that
`maybeFlushSession` calls leaves the session as it is. -/
def TrackedSession.update (self : TrackedSession) : TrackedSession := self

/-- The flag `flushed` of the query stored under `eid`, if there is one. -/
def flushedOf (session : TrackedSession) (eid : String) : Option Bool :=
  (session.queries.lookup eid).map (fun q => q.flushed)

/-! ## Runs and example inputs -/

/-- Successive `maybeFlushSession` calls on one session, at the stream times `ts` from
left to right: the session after them and all calls made on the output. -/
def flushEvaluations (d : Decls) (uid : String) :
    TrackedSession → List Nat → TrackedSession × List Emission
  | s, [] => (s, [])
  | s, t :: ts =>
    let r := maybeFlushSession d uid s t
    let rest := flushEvaluations d uid r.session ts
    (rest.1, r.out ++ rest.2)

/-- An operation on one session: the body of an insert, or a flush evaluation. -/
inductive SessionOp where
  | insertQuery (eid : String) (query : TrackedQuery)
  | insertItemVisit (eid : String) (visit : TrackedItemVisit)
  | maybeFlushSession (stream_time : Nat)
deriving DecidableEq, Repr

/-- The session after one operation. -/
def SessionOp.apply (d : Decls) (uid : String) (s : TrackedSession) : SessionOp → TrackedSession
  | SessionOp.insertQuery eid query => s.insertQuery eid query
  | SessionOp.insertItemVisit eid visit => s.insertItemVisit eid visit
  | SessionOp.maybeFlushSession t => (cm.maybeFlushSession d uid s t).session

/-- The session after a run of operations, from left to right. -/
def runOps (d : Decls) (uid : String) (s : TrackedSession) (ops : List SessionOp) :
    TrackedSession :=
  ops.foldl (SessionOp.apply d uid) s

/-- The `last_seen_unix_micros` of the session stored under `uid`, 0 when there is none
(the value `findOrCreateSession` gives a new session). -/
def lastSeenOf (svc : LogJoinService) (uid : String) : Nat :=
  ((svc.sessions_.lookup uid).map (fun s => s.last_seen_unix_micros)).getD 0

/-- The example configuration: idle timeout 1800 s, click delay 900 s, and an `update`
that changes nothing. -/
def exampleDecls : Decls :=
  { kSessionIdleTimeoutSeconds := 1800, kMaxQueryClickDelaySeconds := 900, update := id }

/-- A session of tenant `dawanda` with no events and `last_seen = 0`. -/
def idleSession : TrackedSession := TrackedSession.fresh "dawanda"

/-- A registry with two sessions, `u1` and `u2`, both last seen at time 0. -/
def twoIdleSessions : LogJoinService :=
  { sessions_ := [("u1", idleSession), ("u2", idleSession)], stream_clock_ := 0, out_ := [] }

/-- A session of tenant `dawanda` with one unflushed query `q1` of time 0, last seen at
10 s. -/
def oneQuerySession : TrackedSession :=
  { customer := "dawanda"
    queries := [("q1", { time := 0, flushed := false, attrs := [("qstr", "shoes")] })]
    item_visits := []
    last_seen_unix_micros := 10000000 }

/-- A registry holding, under `u1`, `oneQuerySession` as the flush evaluation at 901 s
leaves it: the query `q1` is flushed. -/
def flushedQueryService : LogJoinService :=
  { sessions_ := [("u1", (maybeFlushSession exampleDecls "u1" oneQuerySession 901000000).session)]
    stream_clock_ := 901000000
    out_ := [] }

/-! ## Observations on the output -/

/-- The call is a `recordJoinedSession`. -/
def Emission.isSession : Emission → Bool
  | Emission.recordJoinedSession _ _ _ => true
  | _ => false

/-- The call is a `recordJoinedQuery`. -/
def Emission.isQuery : Emission → Bool
  | Emission.recordJoinedQuery _ _ _ _ => true
  | _ => false

/-- The call is a `recordJoinedQuery` for the event id `eid`. -/
def Emission.isQueryFor (eid : String) : Emission → Bool
  | Emission.recordJoinedQuery _ _ e _ => decide (e = eid)
  | _ => false

/-! ## Log lines -/

/-- Declarations that `insertLogline` uses and that are not among the sources, on top of
those of `Decls`: `fnord::URI::parseQueryString`, `TrackedQuery::fromParams` and
`TrackedItemVisit::fromParams`. They are parameters of the embedding. -/
structure LineDecls extends Decls where
  parseQueryString : String → ParamList
  queryFromParams : TrackedQuery → ParamList → TrackedQuery
  visitFromParams : TrackedItemVisit → ParamList → TrackedItemVisit

/-- The assumption on the two `fromParams` under which statements about the time and the
flag of a decoded event are made: they fill in attributes and keep `time` and `flushed`. -/
def FromParamsFrame (d : LineDecls) : Prop :=
  (∀ (q : TrackedQuery) (params : ParamList),
    (d.queryFromParams q params).time = q.time ∧
      (d.queryFromParams q params).flushed = q.flushed) ∧
  (∀ (v : TrackedItemVisit) (params : ParamList), (d.visitFromParams v params).time = v.time)

/-- `fnord::URI::getParam`: the value of the first parameter named `key`, if any. -/
def getParam (params : ParamList) (key : String) : Option String :=
  params.lookup key

/-- `std::string::find` of one character: the first position of `ch`, `none` for `npos`. -/
def find (c : String) (ch : Char) : Option Nat :=
  if c.toList.indexOf ch < c.toList.length then some (c.toList.indexOf ch) else none

/-- `std::string::substr(pos, len)`. -/
def substr (c : String) (pos len : Nat) : String :=
  String.mk ((c.toList.drop pos).take len)

/-- The kinds of error: `kParseError` is the one the source raises; `UnsupportedEventError`
is the kind the specification names for an unknown event type. -/
inductive ErrorKind where
  | kParseError
  | UnsupportedEventError
deriving DecidableEq, Repr

/-- How a call of `insertLogline` ends, with the state of the service at that point: it
returns, it raises an error (`RAISE`), or its flush pass runs into undefined behaviour. -/
inductive LineResult where
  | returned (svc : LogJoinService)
  | raised (kind : ErrorKind) (msg : String) (svc : LogJoinService)
  | undefinedBehaviour (svc : LogJoinService)
deriving DecidableEq, Repr

/-- The switch on `evtype[0]` of `insertLogline`. -/
def processEvent (d : LineDecls) (svc : LogJoinService) (customer : String) (time : Nat)
    (params : ParamList) (uid eid : String) (evtype : Char) : LineResult :=
  if evtype = 'q' then
    LineResult.returned (insertQuery svc customer uid eid
      (d.queryFromParams { time := time, flushed := false, attrs := [] } params))
  else if evtype = 'v' then
    LineResult.returned (insertItemVisit svc customer uid eid
      (d.visitFromParams { time := time, attrs := [] } params))
  else LineResult.raised ErrorKind.kParseError "invalid e param" svc

/-- The part of `insertLogline` that follows the flush pass: extraction of uid and eid from
the parameter `c`, extraction of the event type from `e`, and the switch. The value of `e`
is the one character `ch` (`evtype.toList = [ch]`) exactly when `evtype.length() == 1`,
and then `ch` is `evtype[0]`. -/
def decodeAndInsert (d : LineDecls) (svc : LogJoinService) (customer : String) (time : Nat)
    (params : ParamList) : LineResult :=
  match getParam params "c" with
  | none => LineResult.raised ErrorKind.kParseError "c param is missing" svc
  | some c =>
    match find c '~' with
    | none => LineResult.raised ErrorKind.kParseError "c param is invalid" svc
    | some c_s =>
      let uid := substr c 0 c_s
      let eid := substr c (c_s + 1) (c.length - c_s - 1)
      if uid.length = 0 ∨ eid.length = 0 then
        LineResult.raised ErrorKind.kParseError "c param is invalid" svc
      else
        match getParam params "e" with
        | none => LineResult.raised ErrorKind.kParseError "e param is missing" svc
        | some evtype =>
          match evtype.toList with
          | [ch] => processEvent d svc customer time params uid eid ch
          | _ => LineResult.raised ErrorKind.kParseError "e param is missing" svc

/-- `LogJoinService::insertLogline(customer, time, log_line)`: the stream clock, the
parse, the flush pass at the new watermark, and then the decoding and the insert. -/
def insertLogline (d : LineDecls) (svc : LogJoinService) (customer : String) (time : Nat)
    (log_line : String) : LineResult :=
  let st := streamTime svc time
  let params := d.parseQueryString log_line
  match flush d.toDecls st.2 st.1 with
  | Run.undefinedBehaviour svc1 => LineResult.undefinedBehaviour svc1
  | Run.completed svc1 => decodeAndInsert d svc1 customer time params

/-- No session of the registry is reported flushed at the stream time `t`. -/
def noSessionDue (d : Decls) (svc : LogJoinService) (t : Nat) : Prop :=
  ∀ p ∈ svc.sessions_, (maybeFlushSession d p.1 p.2 t).do_flush = false

/-- The state a flush pass at `t` leaves when no session is due: every session is as its
`maybeFlushSession` call leaves it, and the calls made are appended to the output. -/
def sweep (d : Decls) (svc : LogJoinService) (t : Nat) : LogJoinService :=
  { sessions_ := svc.sessions_.map (fun p => (p.1, (maybeFlushSession d p.1 p.2 t).session))
    stream_clock_ := svc.stream_clock_
    out_ := svc.out_ ++ (svc.sessions_.map (fun p => (maybeFlushSession d p.1 p.2 t).out)).flatten }

/-- The state of the service when a call of `insertLogline` ends with defined behaviour. -/
def LineResult.state? : LineResult → Option LogJoinService
  | LineResult.returned svc => some svc
  | LineResult.raised _ _ svc => some svc
  | LineResult.undefinedBehaviour _ => none

/-- A log line as `insertLogline` receives it: tenant, timestamp and text. -/
structure LogLine where
  customer : String
  time : Nat
  text : String
deriving DecidableEq, Repr

/-- A run of `insertLogline` calls, from left to right; a call that raises an error leaves
its state to the next call. `none` when a call runs into undefined behaviour. -/
def insertLoglines (d : LineDecls) : LogJoinService → List LogLine → Option LogJoinService
  | svc, [] => some svc
  | svc, l :: ls =>
    match (insertLogline d svc l.customer l.time l.text).state? with
    | none => none
    | some svc1 => insertLoglines d svc1 ls

/-- The order of steps that the specification describes (sections 2 and 4.4): the stream
clock, then the decoding and the merge, and only then the flush, evaluated on the merged
state with the advanced watermark. For comparison with `insertLogline`. -/
def insertLoglineMergeFirst (d : LineDecls) (svc : LogJoinService) (customer : String)
    (time : Nat) (log_line : String) : LineResult :=
  let st := streamTime svc time
  match decodeAndInsert d st.2 customer time (d.parseQueryString log_line) with
  | LineResult.returned svc1 =>
    match flush d.toDecls svc1 st.1 with
    | Run.completed svc2 => LineResult.returned svc2
    | Run.undefinedBehaviour svc2 => LineResult.undefinedBehaviour svc2
  | r => r

/-! ## Example log lines -/

/-- Split a character sequence at every `sep`. -/
def splitOnChar (sep : Char) : List Char → List (List Char)
  | [] => [[]]
  | ch :: rest =>
    if ch = sep then [] :: splitOnChar sep rest
    else
      match splitOnChar sep rest with
      | [] => [[ch]]
      | w :: ws => (ch :: w) :: ws

/-- Split `key=value` at the first `=`. -/
def splitPair (cs : List Char) : String × String :=
  (String.mk (cs.takeWhile (fun ch => ch ≠ '=')),
    String.mk ((cs.dropWhile (fun ch => ch ≠ '=')).drop 1))

/-- A plain query-string parser for the examples: parameters are separated by `&`, key and
value by the first `=`; no percent-decoding. -/
def splitQueryString (line : String) : ParamList :=
  (splitOnChar '&' line.toList).map splitPair

/-- The example configuration for log lines: `exampleDecls`, the plain parser, and
`fromParams` that store the parameters of the line as attributes. -/
def exampleLineDecls : LineDecls :=
  { toDecls := exampleDecls
    parseQueryString := splitQueryString
    queryFromParams := fun q params => { q with attrs := params }
    visitFromParams := fun v params => { v with attrs := params } }

/-- A registry holding, under `u1`, a session with one unflushed query `q1` of time 0 and
last seen at time 0. -/
def freshQueryService : LogJoinService :=
  { sessions_ := [("u1", { oneQuerySession with last_seen_unix_micros := 0 })]
    stream_clock_ := 0
    out_ := [] }

/-- A registry holding, under `u1`, a session without events, last seen at time 0. -/
def idleService : LogJoinService :=
  { sessions_ := [("u1", idleSession)], stream_clock_ := 0, out_ := [] }

/-- Two log lines with decreasing timestamps: a query of `u1` at 10 s, then an item visit
of `u2` at 0 s. -/
def outOfOrderLines : List LogLine :=
  [{ customer := "dawanda", time := 10000000, text := "c=u1~q1&e=q&qstr=shoes" },
    { customer := "dawanda", time := 0, text := "c=u2~q7&e=v&i=p~1" }]

/-- The state of a fresh service after `outOfOrderLines`. -/
def afterOutOfOrderLines : LogJoinService :=
  { sessions_ :=
      [("u1",
        { customer := "dawanda"
          queries := [("q1",
            { time := 10000000, flushed := false,
              attrs := [("c", "u1~q1"), ("e", "q"), ("qstr", "shoes")] })]
          item_visits := []
          last_seen_unix_micros := 10000000 }),
       ("u2",
        { customer := "dawanda"
          queries := []
          item_visits := [("q7",
            { time := 0, attrs := [("c", "u2~q7"), ("e", "v"), ("i", "p~1")] })]
          last_seen_unix_micros := 0 })]
    stream_clock_ := 10000000
    out_ := [Emission.recordJoinedItemVisit "dawanda" "u2" "q7"
      { time := 0, attrs := [("c", "u2~q7"), ("e", "v"), ("i", "p~1")] }] }

/-- The two log lines of the scenario: the query `q1` of `u1` at 0 s and its click at
10 s. -/
def scenarioLines : List LogLine :=
  [{ customer := "dawanda", time := 0, text := "c=u1~q1&e=q&qstr=shoes" },
    { customer := "dawanda", time := 10000000, text := "c=u1~q1&e=q&clicked=1" }]

/-- The query `q1` of the scenario after both lines, with its flag `flushed`. -/
def scenarioQuery (flushed : Bool) : TrackedQuery :=
  { time := 0, flushed := flushed,
    attrs := [("c", "u1~q1"), ("e", "q"), ("qstr", "shoes"), ("clicked", "1")] }

/-- The session `u1` of the scenario after both lines, with the flag of its query. -/
def scenarioSession (flushed : Bool) : TrackedSession :=
  { customer := "dawanda"
    queries := [("q1", scenarioQuery flushed)]
    item_visits := []
    last_seen_unix_micros := 10000000 }

/-- The service of the scenario: the session `u1` alone, with the flag of its query, the
stream clock and the output given. -/
def scenarioService (flushed : Bool) (clock : Nat) (out : List Emission) : LogJoinService :=
  { sessions_ := [("u1", scenarioSession flushed)], stream_clock_ := clock, out_ := out }

/-- A session last seen at time 0 whose unflushed query `q1` has the later time 10 s. -/
def futureQuerySession : TrackedSession :=
  { customer := "dawanda"
    queries := [("q1", { time := 10000000, flushed := false, attrs := [] })]
    item_visits := []
    last_seen_unix_micros := 0 }

/-! ## Stream clock: theorems -/

theorem streamTime_clock (svc : LogJoinService) (t : Nat) :
    (streamTime svc t).2.stream_clock_ = max svc.stream_clock_ t := by
  unfold streamTime
  by_cases h : t > svc.stream_clock_
  · simp [h]; omega
  · simp [h]; omega

theorem streamTimes_snoc (svc : LogJoinService) (ts : List Nat) (t : Nat) :
    streamTimes svc (ts ++ [t]) = (streamTime (streamTimes svc ts) t).2 := by
  simp [streamTimes, List.foldl_append]

theorem streamTimes_clock_ge (ts : List Nat) :
    ∀ svc : LogJoinService, svc.stream_clock_ ≤ (streamTimes svc ts).stream_clock_ := by
  induction ts with
  | nil => intro svc; simp [streamTimes]
  | cons t ts ih =>
    intro svc
    have h1 := streamTime_clock svc t
    have h2 := ih (streamTime svc t).2
    simp only [streamTimes, List.foldl_cons] at h2 ⊢
    omega

theorem streamTimes_clock_upper (ts : List Nat) :
    ∀ svc : LogJoinService, ∀ x ∈ ts, x ≤ (streamTimes svc ts).stream_clock_ := by
  induction ts with
  | nil => intro svc x hx; simp at hx
  | cons t ts ih =>
    intro svc x hx
    have h1 := streamTime_clock svc t
    have h2 := streamTimes_clock_ge ts (streamTime svc t).2
    simp only [streamTimes, List.foldl_cons] at h2 ⊢
    rcases List.mem_cons.mp hx with rfl | hx
    · omega
    · exact ih _ x hx

theorem streamTimes_clock_mem (ts : List Nat) :
    ∀ svc : LogJoinService,
      (streamTimes svc ts).stream_clock_ = svc.stream_clock_ ∨
        (streamTimes svc ts).stream_clock_ ∈ ts := by
  induction ts with
  | nil => intro svc; simp [streamTimes]
  | cons t ts ih =>
    intro svc
    have h1 := streamTime_clock svc t
    have h2 := ih (streamTime svc t).2
    simp only [streamTimes, List.foldl_cons] at h2 ⊢
    rcases h2 with h2 | h2
    · rw [h2, h1]
      rcases Nat.le_total svc.stream_clock_ t with h | h
      · right; rw [Nat.max_eq_right h]; exact List.mem_cons_self _ _
      · left; exact Nat.max_eq_left h
    · right; exact List.mem_cons_of_mem _ h2

/-- C1. Stream clock step: for every state of the service and every timestamp `t`,
`streamTime` sets the watermark to the maximum of the old watermark and `t`, returns that
new watermark, and touches neither the registry nor the output. -/
theorem streamTime_max (svc : LogJoinService) (t : Nat) :
    (streamTime svc t).2.stream_clock_ = max svc.stream_clock_ t ∧
      (streamTime svc t).1 = (streamTime svc t).2.stream_clock_ ∧
      t ≤ (streamTime svc t).1 ∧
      (streamTime svc t).2.sessions_ = svc.sessions_ ∧
      (streamTime svc t).2.out_ = svc.out_ := by
  have h := streamTime_clock svc t
  refine ⟨h, rfl, ?_, ?_, ?_⟩
  · show t ≤ (streamTime svc t).2.stream_clock_
    omega
  · unfold streamTime; split_ifs <;> rfl
  · unfold streamTime; split_ifs <;> rfl

/-- C2. Monotonic clock: start from the constructor's state (watermark 0) and make
`streamTime` calls with the timestamps `ts`, then one more with `t`. The watermark after
that call is at least the watermark before it, it is at least every timestamp passed so
far, and it is one of them: it is the maximum of the timestamps passed so far. -/
theorem streamTime_monotonic (ts : List Nat) (t : Nat) :
    (streamTimes LogJoinService.new ts).stream_clock_ ≤
        (streamTime (streamTimes LogJoinService.new ts) t).2.stream_clock_ ∧
      (∀ x ∈ ts ++ [t], x ≤ (streamTime (streamTimes LogJoinService.new ts) t).2.stream_clock_) ∧
      (streamTime (streamTimes LogJoinService.new ts) t).2.stream_clock_ ∈ ts ++ [t] ∧
      (streamTime (streamTimes LogJoinService.new ts) t).2.stream_clock_ =
        (ts ++ [t]).foldl max 0 := by
  have hstep := streamTime_clock (streamTimes LogJoinService.new ts) t
  have hupper := streamTimes_clock_upper (ts ++ [t]) LogJoinService.new
  have hmem := streamTimes_clock_mem (ts ++ [t]) LogJoinService.new
  rw [streamTimes_snoc] at hupper hmem
  refine ⟨by omega, hupper, ?_, ?_⟩
  · rcases hmem with h | h
    · have h0 : (streamTime (streamTimes LogJoinService.new ts) t).2.stream_clock_ = 0 := by
        rw [h]; rfl
      have ht : t = 0 := by omega
      rw [h0]; simp [ht]
    · exact h
  · rw [← streamTimes_snoc]
    generalize ts ++ [t] = l
    have key : ∀ (l : List Nat) (svc : LogJoinService),
        (streamTimes svc l).stream_clock_ = l.foldl max svc.stream_clock_ := by
      intro l
      induction l with
      | nil => intro svc; rfl
      | cons a l ih =>
        intro svc
        have := ih (streamTime svc a).2
        simp only [streamTimes, List.foldl_cons] at this ⊢
        rw [this, streamTime_clock]
    exact key l LogJoinService.new

/-! ## Flush decision: theorems -/

theorem sub64_eq (a b : Nat) (ha : a < u64) (hb : b ≤ a) : sub64 a b = a - b := by
  unfold sub64 at *
  rw [Nat.mod_eq_of_lt ha, Nat.mod_eq_of_lt (by omega : b < u64)]
  have : a + u64 - b = (a - b) + u64 := by omega
  rw [this, Nat.add_mod_right]
  exact Nat.mod_eq_of_lt (by omega)

theorem maybeFlushSession_early (d : Decls) (uid : String) (s : TrackedSession) (t : Nat)
    (h : t % u64 < s.last_seen_unix_micros) :
    maybeFlushSession d uid s t = { do_flush := false, session := s, out := [] } := by
  unfold maybeFlushSession
  rw [if_pos h]

theorem maybeFlushSession_do_flush (d : Decls) (uid : String) (s : TrackedSession) (t : Nat)
    (h : ¬ t % u64 < s.last_seen_unix_micros) :
    (maybeFlushSession d uid s t).do_flush =
      decide (sub64 t s.last_seen_unix_micros > d.sessionIdleTimeout) := by
  unfold maybeFlushSession
  rw [if_neg h]

theorem maybeFlushSession_out (d : Decls) (uid : String) (s : TrackedSession) (t : Nat)
    (h : ¬ t % u64 < s.last_seen_unix_micros) :
    (maybeFlushSession d uid s t).out =
      (markQueries d t s.queries).2.map (fun fq =>
        Emission.recordJoinedQuery (maybeFlushSession d uid s t).session.customer uid fq.1
          (derefQuery (maybeFlushSession d uid s t).session fq.1 fq.2)) ++
      (if (maybeFlushSession d uid s t).do_flush then
        [Emission.recordJoinedSession (maybeFlushSession d uid s t).session.customer uid
          (maybeFlushSession d uid s t).session]
      else []) := by
  unfold maybeFlushSession
  rw [if_neg h]

theorem countP_map_eq_zero {α β : Type} (p : β → Bool) (g : α → β) (l : List α)
    (h : ∀ x, p (g x) = false) : (l.map g).countP p = 0 := by
  induction l with
  | nil => rfl
  | cons a l ih => simp [List.countP_cons, h, ih]

theorem maybeFlushSession_count_session (d : Decls) (uid : String) (s : TrackedSession)
    (t : Nat) :
    (maybeFlushSession d uid s t).out.countP Emission.isSession =
      if (maybeFlushSession d uid s t).do_flush then 1 else 0 := by
  by_cases h : t % u64 < s.last_seen_unix_micros
  · rw [maybeFlushSession_early d uid s t h]; rfl
  · rw [maybeFlushSession_out d uid s t h, List.countP_append,
      countP_map_eq_zero _ _ _ (fun _ => rfl)]
    split_ifs <;> rfl

/-- C3. Session timeout: for a stream time `t` that is a `uint64_t` value,
`maybeFlushSession` returns true exactly when `t >= last_seen` and `t - last_seen` is
strictly greater than the session idle timeout; it makes one `recordJoinedSession` call
when it returns true and none otherwise. With a timeout of 1800 s and `last_seen = T`, the
evaluation at `T + 1801 s` returns true and those at `T + 1799 s` and `T + 1800 s` return
false. -/
theorem maybeFlushSession_session_timeout (d : Decls) (uid : String) (s : TrackedSession)
    (t : Nat) (ht : t < u64) :
    ((maybeFlushSession d uid s t).do_flush = true ↔
        s.last_seen_unix_micros ≤ t ∧ t - s.last_seen_unix_micros > d.sessionIdleTimeout) ∧
      ((maybeFlushSession d uid s t).out.countP Emission.isSession =
        if (maybeFlushSession d uid s t).do_flush then 1 else 0) ∧
      ((maybeFlushSession d uid s t).do_flush = true →
        Emission.recordJoinedSession (maybeFlushSession d uid s t).session.customer uid
          (maybeFlushSession d uid s t).session ∈ (maybeFlushSession d uid s t).out) ∧
      (d.kSessionIdleTimeoutSeconds = 1800 →
        (s.last_seen_unix_micros + 1801 * kMicrosPerSecond < u64 →
          (maybeFlushSession d uid s
            (s.last_seen_unix_micros + 1801 * kMicrosPerSecond)).do_flush = true) ∧
        (maybeFlushSession d uid s
          (s.last_seen_unix_micros + 1799 * kMicrosPerSecond)).do_flush = false ∧
        (maybeFlushSession d uid s
          (s.last_seen_unix_micros + 1800 * kMicrosPerSecond)).do_flush = false) := by
  have hiff : ∀ t1 : Nat, t1 < u64 →
      ((maybeFlushSession d uid s t1).do_flush = true ↔
        s.last_seen_unix_micros ≤ t1 ∧
          t1 - s.last_seen_unix_micros > d.sessionIdleTimeout) := by
    intro t1 ht1
    by_cases h : t1 % u64 < s.last_seen_unix_micros
    · rw [maybeFlushSession_early d uid s t1 h]
      rw [Nat.mod_eq_of_lt ht1] at h
      constructor
      · intro hf; simp at hf
      · intro hc; omega
    · rw [maybeFlushSession_do_flush d uid s t1 h]
      rw [Nat.mod_eq_of_lt ht1] at h
      rw [sub64_eq t1 _ ht1 (by omega), decide_eq_true_iff]
      constructor
      · intro hc; exact ⟨by omega, hc⟩
      · intro hc; exact hc.2
  have hno : ∀ k : Nat, k ≤ d.sessionIdleTimeout →
      (maybeFlushSession d uid s (s.last_seen_unix_micros + k)).do_flush = false := by
    intro k hk
    by_cases h : (s.last_seen_unix_micros + k) % u64 < s.last_seen_unix_micros
    · rw [maybeFlushSession_early d uid s _ h]
    · rw [maybeFlushSession_do_flush d uid s _ h, decide_eq_false_iff_not]
      by_cases hlt : s.last_seen_unix_micros + k < u64
      · rw [sub64_eq _ _ hlt (by omega)]; omega
      · exfalso
        apply h
        have hk64 : k < u64 := by
          have : d.sessionIdleTimeout < u64 := Nat.mod_lt _ (by decide)
          omega
        have hu : u64 = 18446744073709551616 := by decide
        rw [hu] at hlt hk64 ⊢
        omega
  refine ⟨hiff t ht, maybeFlushSession_count_session d uid s t, ?_, ?_⟩
  · intro hf
    by_cases h : t % u64 < s.last_seen_unix_micros
    · rw [maybeFlushSession_early d uid s t h] at hf; simp at hf
    · rw [maybeFlushSession_out d uid s t h, if_pos hf]
      simp
  · intro h1800
    have hto : d.sessionIdleTimeout = 1800 * kMicrosPerSecond := by
      unfold Decls.sessionIdleTimeout mul64
      rw [h1800]; decide
    refine ⟨?_, ?_, ?_⟩
    · intro hlt
      rw [hiff _ hlt, hto]
      simp [kMicrosPerSecond]
    · apply hno; rw [hto]; simp [kMicrosPerSecond]
    · apply hno; rw [hto]

theorem sub64_add_left (b k : Nat) (hk : k < u64) : sub64 (b + k) b = k := by
  have hu : u64 = 18446744073709551616 := by decide
  unfold sub64
  rw [hu] at hk ⊢
  omega

theorem lookup_queryStates (qs : List (String × TrackedQuery)) (eid : String) :
    (queryStates qs).lookup eid = (qs.lookup eid).map (fun q => (q.time, q.flushed)) := by
  induction qs with
  | nil => rfl
  | cons a qs ih =>
    obtain ⟨k, q⟩ := a
    simp only [queryStates, List.map_cons, List.lookup_cons] at ih ⊢
    cases h : (eid == k)
    · simpa [queryStates] using ih
    · simp

theorem markQueries_fst (d : Decls) (t : Nat) (qs : List (String × TrackedQuery)) :
    (markQueries d t qs).1 =
      qs.map (fun p => (p.1, if queryDue d t p.2 then { p.2 with flushed := true } else p.2)) := by
  induction qs with
  | nil => rfl
  | cons a qs ih =>
    obtain ⟨k, q⟩ := a
    simp only [markQueries, List.map_cons]
    by_cases h : queryDue d t q = true
    · simp [h, ih]
    · simp [h, ih]

theorem markQueries_snd (d : Decls) (t : Nat) (qs : List (String × TrackedQuery)) :
    (markQueries d t qs).2 =
      (qs.filter (fun p => queryDue d t p.2)).map
        (fun p => (p.1, { p.2 with flushed := true })) := by
  induction qs with
  | nil => rfl
  | cons a qs ih =>
    obtain ⟨k, q⟩ := a
    simp only [markQueries]
    by_cases h : queryDue d t q = true
    · simp [h, ih]
    · simp [h, ih]

theorem lookup_map_snd {β γ : Type} (f : β → γ) (m : List (String × β)) (k : String) :
    (m.map (fun p => (p.1, f p.2))).lookup k = (m.lookup k).map f := by
  induction m with
  | nil => rfl
  | cons a m ih =>
    obtain ⟨k1, v⟩ := a
    simp only [List.map_cons, List.lookup_cons]
    cases h : (k == k1)
    · simpa using ih
    · simp

theorem lookup_markQueries (d : Decls) (t : Nat) (qs : List (String × TrackedQuery))
    (eid : String) :
    (markQueries d t qs).1.lookup eid =
      (qs.lookup eid).map
        (fun q => if queryDue d t q then { q with flushed := true } else q) := by
  rw [markQueries_fst]
  exact lookup_map_snd
    (fun q : TrackedQuery => if queryDue d t q then { q with flushed := true } else q) qs eid

theorem maybeFlushSession_session (d : Decls) (uid : String) (s : TrackedSession) (t : Nat)
    (h : ¬ t % u64 < s.last_seen_unix_micros) :
    (maybeFlushSession d uid s t).session = { s with queries := (markQueries d t s.queries).1 } ∨
      (maybeFlushSession d uid s t).session =
        d.update { s with queries := (markQueries d t s.queries).1 } := by
  unfold maybeFlushSession
  rw [if_neg h]
  dsimp only
  split_ifs
  · right; rfl
  · left; rfl

theorem maybeFlushSession_frame (d : Decls) (uid : String) (s : TrackedSession) (t : Nat)
    (hupd : UpdateFrame d.update) (h : ¬ t % u64 < s.last_seen_unix_micros) :
    (maybeFlushSession d uid s t).session.customer = s.customer ∧
      (maybeFlushSession d uid s t).session.last_seen_unix_micros = s.last_seen_unix_micros ∧
      keys (maybeFlushSession d uid s t).session.item_visits = keys s.item_visits ∧
      queryStates (maybeFlushSession d uid s t).session.queries =
        queryStates (markQueries d t s.queries).1 := by
  rcases maybeFlushSession_session d uid s t h with h1 | h1
  · rw [h1]; exact ⟨rfl, rfl, rfl, rfl⟩
  · rw [h1]; exact hupd _

theorem flushedOf_eq (session : TrackedSession) (eid : String) :
    flushedOf session eid = ((queryStates session.queries).lookup eid).map (fun x => x.2) := by
  rw [lookup_queryStates, flushedOf, Option.map_map]
  rfl

theorem maybeFlushSession_flushedOf (d : Decls) (uid : String) (s : TrackedSession) (t : Nat)
    (hupd : UpdateFrame d.update) (h : ¬ t % u64 < s.last_seen_unix_micros) (eid : String) :
    flushedOf (maybeFlushSession d uid s t).session eid =
      (s.queries.lookup eid).map (fun q => q.flushed || queryDue d t q) := by
  rw [flushedOf_eq, (maybeFlushSession_frame d uid s t hupd h).2.2.2, lookup_queryStates,
    lookup_markQueries, Option.map_map, Option.map_map]
  congr 1
  funext q
  by_cases hq : queryDue d t q = true
  · simp [hq]
  · simp [hq]

theorem mem_markQueries_snd (d : Decls) (t : Nat) (qs : List (String × TrackedQuery))
    (eid : String) :
    (∃ q, (eid, q) ∈ (markQueries d t qs).2) ↔ ∃ q, (eid, q) ∈ qs ∧ queryDue d t q = true := by
  rw [markQueries_snd]
  constructor
  · rintro ⟨q, hq⟩
    obtain ⟨p, hp, hpe⟩ := List.mem_map.mp hq
    obtain ⟨hp1, hp2⟩ := List.mem_filter.mp hp
    obtain ⟨k, q0⟩ := p
    simp only [Prod.mk.injEq] at hpe
    obtain ⟨rfl, -⟩ := hpe
    exact ⟨q0, hp1, hp2⟩
  · rintro ⟨q, hq, hd⟩
    exact ⟨{ q with flushed := true },
      List.mem_map.mpr ⟨(eid, q), List.mem_filter.mpr ⟨hq, hd⟩, rfl⟩⟩

/-- C3 at `oneQuerySession`, evaluated 1801 s after its `last_seen` of 10 s. -/
theorem maybeFlushSession_session_timeout_witness :
    1811000000 < u64 ∧
      ((maybeFlushSession exampleDecls "u1" oneQuerySession 1811000000).do_flush = true ↔
        oneQuerySession.last_seen_unix_micros ≤ 1811000000 ∧
          1811000000 - oneQuerySession.last_seen_unix_micros >
            exampleDecls.sessionIdleTimeout) ∧
      (maybeFlushSession exampleDecls "u1" oneQuerySession 1811000000).do_flush = true :=
  ⟨by decide,
    (maybeFlushSession_session_timeout exampleDecls "u1" oneQuerySession 1811000000
      (by decide)).1,
    by decide⟩

/-- C4. Query timeout: let `t` be a `uint64_t` stream time with `t >= last_seen`, and `q`
the query stored under `eid`, not yet flushed, with `q.time <= t`. After
`maybeFlushSession` that query is flushed exactly when `t - q.time` is strictly greater
than the click delay, whatever the decision on the session is. With a click delay of
900 s the evaluation at `q.time + 901 s` flushes the query, also when the session stays
open (idle timeout 1800 s, `q.time <= last_seen`), and the one at `q.time + 899 s` does
not. `update` is assumed to keep the flags (`UpdateFrame`). -/
theorem maybeFlushSession_query_timeout (d : Decls) (uid : String) (s : TrackedSession)
    (t : Nat) (eid : String) (q : TrackedQuery) (hupd : UpdateFrame d.update) (ht : t < u64)
    (hls : s.last_seen_unix_micros ≤ t) (hq : s.queries.lookup eid = some q)
    (hnf : q.flushed = false) (hqt : q.time ≤ t) :
    flushedOf (maybeFlushSession d uid s t).session eid =
        some (decide (t - q.time > d.maxQueryClickDelay)) ∧
      (d.kMaxQueryClickDelaySeconds = 900 →
        (q.time + 901 * kMicrosPerSecond < u64 →
          s.last_seen_unix_micros ≤ q.time + 901 * kMicrosPerSecond →
          flushedOf (maybeFlushSession d uid s (q.time + 901 * kMicrosPerSecond)).session eid =
            some true) ∧
        (d.kSessionIdleTimeoutSeconds = 1800 →
          q.time + 901 * kMicrosPerSecond < u64 →
          q.time ≤ s.last_seen_unix_micros →
          s.last_seen_unix_micros ≤ q.time + 901 * kMicrosPerSecond →
          (maybeFlushSession d uid s (q.time + 901 * kMicrosPerSecond)).do_flush = false) ∧
        flushedOf (maybeFlushSession d uid s (q.time + 899 * kMicrosPerSecond)).session eid =
          some false) := by
  have hgen : ∀ t1 : Nat, t1 < u64 → s.last_seen_unix_micros ≤ t1 → q.time ≤ t1 →
      flushedOf (maybeFlushSession d uid s t1).session eid =
        some (decide (t1 - q.time > d.maxQueryClickDelay)) := by
    intro t1 ht1 hls1 hqt1
    have hg : ¬ t1 % u64 < s.last_seen_unix_micros := by
      rw [Nat.mod_eq_of_lt ht1]; omega
    rw [maybeFlushSession_flushedOf d uid s t1 hupd hg eid, hq]
    simp [queryDue, hnf, sub64_eq t1 q.time ht1 hqt1]
  refine ⟨hgen t ht hls hqt, ?_⟩
  intro h900
  have hdelay : d.maxQueryClickDelay = 900 * kMicrosPerSecond := by
    unfold Decls.maxQueryClickDelay mul64
    rw [h900]; decide
  refine ⟨?_, ?_, ?_⟩
  · intro hlt hls1
    rw [hgen _ hlt hls1 (by omega), hdelay]
    simp [kMicrosPerSecond]
  · intro h1800 hlt hql hls1
    have hto : d.sessionIdleTimeout = 1800 * kMicrosPerSecond := by
      unfold Decls.sessionIdleTimeout mul64
      rw [h1800]; decide
    have hg : ¬ (q.time + 901 * kMicrosPerSecond) % u64 < s.last_seen_unix_micros := by
      rw [Nat.mod_eq_of_lt hlt]; omega
    rw [maybeFlushSession_do_flush d uid s _ hg, sub64_eq _ _ hlt hls1, hto,
      decide_eq_false_iff_not]
    simp only [kMicrosPerSecond] at *
    omega
  · by_cases hg : (q.time + 899 * kMicrosPerSecond) % u64 < s.last_seen_unix_micros
    · rw [maybeFlushSession_early d uid s _ hg]
      simp [flushedOf, hq, hnf]
    · rw [maybeFlushSession_flushedOf d uid s _ hupd hg eid, hq]
      have h899 : sub64 (q.time + 899 * kMicrosPerSecond) q.time = 899 * kMicrosPerSecond :=
        sub64_add_left _ _ (by decide)
      rw [Option.map_some', queryDue, hnf, h899, hdelay]
      simp [kMicrosPerSecond]

theorem updateFrame_id : UpdateFrame id := fun _ => ⟨rfl, rfl, rfl, rfl⟩

/-- C4 at `oneQuerySession`, evaluated at 901 s: the query `q1` of time 0 is flushed and
the session, last seen at 10 s, stays open. -/
theorem maybeFlushSession_query_timeout_witness :
    (UpdateFrame exampleDecls.update ∧ 901000000 < u64 ∧
      oneQuerySession.last_seen_unix_micros ≤ 901000000 ∧
      oneQuerySession.queries.lookup "q1" =
        some { time := 0, flushed := false, attrs := [("qstr", "shoes")] }) ∧
      flushedOf (maybeFlushSession exampleDecls "u1" oneQuerySession 901000000).session "q1" =
        some (decide (901000000 - 0 > exampleDecls.maxQueryClickDelay)) ∧
      (maybeFlushSession exampleDecls "u1" oneQuerySession 901000000).do_flush = false :=
  ⟨⟨updateFrame_id, by decide, by decide, by decide⟩,
    (maybeFlushSession_query_timeout exampleDecls "u1" oneQuerySession 901000000 "q1"
      { time := 0, flushed := false, attrs := [("qstr", "shoes")] }
      updateFrame_id (by decide) (by decide) (by decide) rfl (by decide)).1,
    by decide⟩

/-- C5. Not-yet-due guard: when the stream time is smaller than the session's
`last_seen`, `maybeFlushSession` returns false, leaves the session as it is (no query is
marked flushed) and makes no call on the output. -/
theorem maybeFlushSession_not_yet_due (d : Decls) (uid : String) (s : TrackedSession)
    (t : Nat) (h : t < s.last_seen_unix_micros) :
    (maybeFlushSession d uid s t).do_flush = false ∧
      (maybeFlushSession d uid s t).session = s ∧
      (maybeFlushSession d uid s t).out = [] := by
  have hg : t % u64 < s.last_seen_unix_micros := Nat.lt_of_le_of_lt (Nat.mod_le _ _) h
  rw [maybeFlushSession_early d uid s t hg]
  exact ⟨rfl, rfl, rfl⟩

/-- C5 at `oneQuerySession`, last seen at 10 s, evaluated at 5 s. -/
theorem maybeFlushSession_not_yet_due_witness :
    5000000 < oneQuerySession.last_seen_unix_micros ∧
      (maybeFlushSession exampleDecls "u1" oneQuerySession 5000000).do_flush = false ∧
      (maybeFlushSession exampleDecls "u1" oneQuerySession 5000000).session = oneQuerySession ∧
      (maybeFlushSession exampleDecls "u1" oneQuerySession 5000000).out = [] :=
  ⟨by decide, maybeFlushSession_not_yet_due exampleDecls "u1" oneQuerySession 5000000 (by decide)⟩

/-! ## Emission of queries -/

theorem countP_map {α β : Type} (p : β → Bool) (g : α → β) (l : List α) :
    (l.map g).countP p = l.countP (fun x => p (g x)) := by
  induction l with
  | nil => rfl
  | cons a l ih => simp [List.countP_cons, ih]

theorem countP_key_absent (d : Decls) (t : Nat) (eid : String)
    (qs : List (String × TrackedQuery)) (h : eid ∉ keys qs) :
    qs.countP (fun p => decide (p.1 = eid) && queryDue d t p.2) = 0 := by
  rw [List.countP_eq_zero]
  intro p hp hc
  apply h
  simp only [Bool.and_eq_true, decide_eq_true_eq] at hc
  exact List.mem_map.mpr ⟨p, hp, hc.1⟩

theorem lookup_key_absent {β : Type} (k : String) (m : List (String × β)) (h : k ∉ keys m) :
    m.lookup k = none := by
  induction m with
  | nil => rfl
  | cons a m ih =>
    obtain ⟨k1, v⟩ := a
    simp only [keys, List.map_cons, List.mem_cons, not_or] at h
    have hne : (k == k1) = false := by simpa using h.1
    rw [List.lookup_cons, hne]
    exact ih h.2

theorem countP_due (d : Decls) (t : Nat) (eid : String) (qs : List (String × TrackedQuery))
    (hnd : (keys qs).Nodup) :
    qs.countP (fun p => decide (p.1 = eid) && queryDue d t p.2) =
      if (qs.lookup eid).map (queryDue d t) = some true then 1 else 0 := by
  induction qs with
  | nil => rfl
  | cons a qs ih =>
    obtain ⟨k, q⟩ := a
    simp only [keys, List.map_cons, List.nodup_cons] at hnd
    by_cases hk : k = eid
    · subst hk
      have h0 := countP_key_absent d t k qs hnd.1
      rw [List.countP_cons, h0]
      simp only [List.lookup_cons, beq_self_eq_true, Option.map_some', decide_True,
        Bool.true_and, Option.some.injEq]
      by_cases hd : queryDue d t q = true
      · simp [hd]
      · simp [hd]
    · have hne : (eid == k) = false := by
        simp only [beq_eq_false_iff_ne, ne_eq]
        exact fun h => hk h.symm
      rw [List.countP_cons, List.lookup_cons, hne, ih hnd.2]
      simp [hk]

theorem maybeFlushSession_count_query (d : Decls) (uid : String) (s : TrackedSession)
    (t : Nat) (eid : String) (hnd : (keys s.queries).Nodup)
    (h : ¬ t % u64 < s.last_seen_unix_micros) :
    (maybeFlushSession d uid s t).out.countP (Emission.isQueryFor eid) =
      if (s.queries.lookup eid).map (queryDue d t) = some true then 1 else 0 := by
  rw [maybeFlushSession_out d uid s t h, List.countP_append, markQueries_snd, List.map_map,
    countP_map, List.countP_filter]
  have hs : (if (maybeFlushSession d uid s t).do_flush = true then
      [Emission.recordJoinedSession (maybeFlushSession d uid s t).session.customer uid
        (maybeFlushSession d uid s t).session]
      else []).countP (Emission.isQueryFor eid) = 0 := by
    split_ifs <;> rfl
  rw [hs, Nat.add_zero, ← countP_due d t eid s.queries hnd]
  congr 1

theorem keys_queryStates (qs : List (String × TrackedQuery)) :
    (queryStates qs).map Prod.fst = keys qs := by
  simp [queryStates, keys, List.map_map, Function.comp_def]

theorem maybeFlushSession_keys (d : Decls) (uid : String) (s : TrackedSession) (t : Nat)
    (hupd : UpdateFrame d.update) :
    keys (maybeFlushSession d uid s t).session.queries = keys s.queries := by
  by_cases h : t % u64 < s.last_seen_unix_micros
  · rw [maybeFlushSession_early d uid s t h]
  · rw [← keys_queryStates, (maybeFlushSession_frame d uid s t hupd h).2.2.2,
      keys_queryStates, markQueries_fst]
    simp [keys, List.map_map, Function.comp_def]

theorem queryDue_not_flushed (d : Decls) (t : Nat) (q : TrackedQuery)
    (h : queryDue d t q = true) : q.flushed = false := by
  simp only [queryDue, Bool.and_eq_true, Bool.not_eq_true'] at h
  exact h.1

theorem flag_changes_iff (d : Decls) (uid : String) (s : TrackedSession) (t : Nat)
    (eid : String) (hupd : UpdateFrame d.update) (h : ¬ t % u64 < s.last_seen_unix_micros) :
    (flushedOf s eid = some false ∧
        flushedOf (maybeFlushSession d uid s t).session eid = some true) ↔
      (s.queries.lookup eid).map (queryDue d t) = some true := by
  rw [maybeFlushSession_flushedOf d uid s t hupd h eid, flushedOf]
  cases hl : s.queries.lookup eid with
  | none => simp
  | some q =>
    simp only [Option.map_some', Option.some.injEq]
    constructor
    · rintro ⟨h1, h2⟩
      simpa [h1] using h2
    · intro hd
      exact ⟨queryDue_not_flushed d t q hd, by simp [hd]⟩

theorem maybeFlushSession_count_query_flag (d : Decls) (uid : String) (s : TrackedSession)
    (t : Nat) (eid : String) (hupd : UpdateFrame d.update) (hnd : (keys s.queries).Nodup) :
    (maybeFlushSession d uid s t).out.countP (Emission.isQueryFor eid) =
      if flushedOf s eid = some false ∧
          flushedOf (maybeFlushSession d uid s t).session eid = some true then 1 else 0 := by
  by_cases h : t % u64 < s.last_seen_unix_micros
  · rw [maybeFlushSession_early d uid s t h]
    have : ¬ (flushedOf s eid = some false ∧ flushedOf s eid = some true) := by
      rintro ⟨h1, h2⟩
      rw [h1] at h2
      simp at h2
    simp [this]
  · rw [maybeFlushSession_count_query d uid s t eid hnd h]
    by_cases hc : (s.queries.lookup eid).map (queryDue d t) = some true
    · rw [if_pos hc, if_pos ((flag_changes_iff d uid s t eid hupd h).mpr hc)]
    · rw [if_neg hc, if_neg (fun h2 => hc ((flag_changes_iff d uid s t eid hupd h).mp h2))]

theorem flushedOf_false_of_after (d : Decls) (uid : String) (s : TrackedSession) (t : Nat)
    (eid : String) (hupd : UpdateFrame d.update)
    (h : flushedOf (maybeFlushSession d uid s t).session eid = some false) :
    flushedOf s eid = some false := by
  by_cases hg : t % u64 < s.last_seen_unix_micros
  · rwa [maybeFlushSession_early d uid s t hg] at h
  · rw [maybeFlushSession_flushedOf d uid s t hupd hg eid] at h
    rw [flushedOf]
    cases hl : s.queries.lookup eid with
    | none => rw [hl] at h; simp at h
    | some q =>
      rw [hl] at h
      simp only [Option.map_some', Option.some.injEq, Bool.or_eq_false_iff] at h
      simp [h.1]

theorem flushEvaluations_count (d : Decls) (uid eid : String) (hupd : UpdateFrame d.update)
    (ts : List Nat) :
    ∀ s : TrackedSession, (keys s.queries).Nodup →
      (flushEvaluations d uid s ts).2.countP (Emission.isQueryFor eid) ≤
        if flushedOf s eid = some false then 1 else 0 := by
  induction ts with
  | nil => intro s _; simp [flushEvaluations]
  | cons t ts ih =>
    intro s hnd
    have hk := maybeFlushSession_keys d uid s t hupd
    have h1 := maybeFlushSession_count_query_flag d uid s t eid hupd hnd
    have h2 := ih (maybeFlushSession d uid s t).session (by rw [hk]; exact hnd)
    simp only [flushEvaluations, List.countP_append]
    rw [h1]
    by_cases hb : flushedOf s eid = some false
    · rw [if_pos hb]
      by_cases ha : flushedOf (maybeFlushSession d uid s t).session eid = some true
      · rw [if_pos ⟨hb, ha⟩]
        rw [if_neg (by rw [ha]; simp)] at h2
        omega
      · rw [if_neg (fun hc => ha hc.2)]
        split_ifs at h2 <;> omega
    · rw [if_neg hb, if_neg (fun hc => hb hc.1)]
      rw [if_neg (fun hc => hb (flushedOf_false_of_after d uid s t eid hupd hc))] at h2
      omega

/-- C7. Query emission exactly once: for a session whose query map has one entry per
event id, a `maybeFlushSession` call makes exactly one `recordJoinedQuery` call for the
event id `eid` when the flag of that query goes from false to true in the call, and none
otherwise; in particular none for a query that is already flushed. Over any run of flush
evaluations on the session at most one `recordJoinedQuery` call is made for `eid`.
`update` is assumed to keep the flags (`UpdateFrame`). -/
theorem maybeFlushSession_query_once (d : Decls) (uid : String) (s : TrackedSession)
    (eid : String) (hupd : UpdateFrame d.update) (hnd : (keys s.queries).Nodup) :
    (∀ t : Nat, (maybeFlushSession d uid s t).out.countP (Emission.isQueryFor eid) =
        if flushedOf s eid = some false ∧
            flushedOf (maybeFlushSession d uid s t).session eid = some true then 1 else 0) ∧
      (∀ t : Nat, flushedOf s eid = some true →
        (maybeFlushSession d uid s t).out.countP (Emission.isQueryFor eid) = 0) ∧
      (∀ ts : List Nat,
        (flushEvaluations d uid s ts).2.countP (Emission.isQueryFor eid) ≤ 1) := by
  refine ⟨fun t => maybeFlushSession_count_query_flag d uid s t eid hupd hnd, ?_, ?_⟩
  · intro t hf
    rw [maybeFlushSession_count_query_flag d uid s t eid hupd hnd, if_neg]
    rintro ⟨h1, -⟩
    rw [hf] at h1
    simp at h1
  · intro ts
    have h := flushEvaluations_count d uid eid hupd ts s hnd
    split_ifs at h <;> omega

/-- C7 at `oneQuerySession`: evaluations at 901 s, 902 s and 1811 s make one
`recordJoinedQuery` call for `q1` in all. -/
theorem maybeFlushSession_query_once_witness :
    (UpdateFrame exampleDecls.update ∧ (keys oneQuerySession.queries).Nodup) ∧
      (flushEvaluations exampleDecls "u1" oneQuerySession
        [901000000, 902000000, 1811000000]).2.countP (Emission.isQueryFor "q1") ≤ 1 ∧
      (flushEvaluations exampleDecls "u1" oneQuerySession
        [901000000, 902000000, 1811000000]).2.countP (Emission.isQueryFor "q1") = 1 :=
  ⟨⟨updateFrame_id, by decide⟩,
    (maybeFlushSession_query_once exampleDecls "u1" oneQuerySession "q1" updateFrame_id
      (by decide)).2.2 [901000000, 902000000, 1811000000],
    by decide⟩

/-! ## Emission order -/

theorem lookup_of_mem {β : Type} (k : String) (v : β) (m : List (String × β))
    (hnd : (keys m).Nodup) (h : (k, v) ∈ m) : m.lookup k = some v := by
  induction m with
  | nil => simp at h
  | cons a m ih =>
    obtain ⟨k1, v1⟩ := a
    simp only [keys, List.map_cons, List.nodup_cons] at hnd
    rcases List.mem_cons.mp h with heq | hm
    · simp only [Prod.mk.injEq] at heq
      obtain ⟨rfl, rfl⟩ := heq
      simp
    · have hne : (k == k1) = false := by
        simp only [beq_eq_false_iff_ne, ne_eq]
        rintro rfl
        exact hnd.1 (List.mem_map.mpr ⟨(k, v), hm, rfl⟩)
      rw [List.lookup_cons, hne]
      exact ih hnd.2 hm

theorem emitted_query_flushed (d : Decls) (uid : String) (s : TrackedSession) (t : Nat)
    (hupd : UpdateFrame d.update) (hnd : (keys s.queries).Nodup) (c u eid : String)
    (q : TrackedQuery)
    (h : Emission.recordJoinedQuery c u eid q ∈ (maybeFlushSession d uid s t).out) :
    flushedOf (maybeFlushSession d uid s t).session eid = some true ∧ q.flushed = true := by
  by_cases hg : t % u64 < s.last_seen_unix_micros
  · rw [maybeFlushSession_early d uid s t hg] at h; simp at h
  · rw [maybeFlushSession_out d uid s t hg, List.mem_append] at h
    rcases h with h | h
    · obtain ⟨fq, hfq, he⟩ := List.mem_map.mp h
      simp only [Emission.recordJoinedQuery.injEq] at he
      obtain ⟨-, -, hk, hq⟩ := he
      obtain ⟨k, q1⟩ := fq
      simp only at hk hq
      subst hk
      obtain ⟨q0, hq0, hdue⟩ := (mem_markQueries_snd d t s.queries k).mp ⟨q1, hfq⟩
      have hl := lookup_of_mem k q0 s.queries hnd hq0
      have hf : flushedOf (maybeFlushSession d uid s t).session k = some true := by
        rw [maybeFlushSession_flushedOf d uid s t hupd hg k, hl]
        simp [hdue]
      refine ⟨hf, ?_⟩
      rw [flushedOf] at hf
      rw [← hq, derefQuery]
      cases hl2 : (maybeFlushSession d uid s t).session.queries.lookup k with
      | none => rw [hl2] at hf; simp at hf
      | some q2 =>
        rw [hl2] at hf
        simpa using hf
    · split_ifs at h <;> simp at h

/-- C8. Emission order: the calls a `maybeFlushSession` call makes on the output are a run
of `recordJoinedQuery` calls followed by at most one `recordJoinedSession` call. The
session record of that call is the session as the call leaves it, and for every query
emitted in the call both the emitted query and the query stored under its event id in the
session record have `flushed = true`. The query map is assumed to have one entry per
event id, and `update` to keep the flags (`UpdateFrame`). -/
theorem maybeFlushSession_emission_order (d : Decls) (uid : String) (s : TrackedSession)
    (t : Nat) (hupd : UpdateFrame d.update) (hnd : (keys s.queries).Nodup) :
    (∃ qs ss : List Emission, (maybeFlushSession d uid s t).out = qs ++ ss ∧
        (∀ e ∈ qs, e.isQuery = true) ∧ (∀ e ∈ ss, e.isSession = true) ∧ ss.length ≤ 1) ∧
      (∀ (c u : String) (sess : TrackedSession),
        Emission.recordJoinedSession c u sess ∈ (maybeFlushSession d uid s t).out →
        sess = (maybeFlushSession d uid s t).session ∧
        ∀ (c2 u2 eid : String) (q : TrackedQuery),
          Emission.recordJoinedQuery c2 u2 eid q ∈ (maybeFlushSession d uid s t).out →
          flushedOf sess eid = some true ∧ q.flushed = true) := by
  constructor
  · by_cases hg : t % u64 < s.last_seen_unix_micros
    · rw [maybeFlushSession_early d uid s t hg]
      exact ⟨[], [], rfl, by simp, by simp, by simp⟩
    · refine ⟨_, _, maybeFlushSession_out d uid s t hg, ?_, ?_, ?_⟩
      · intro e he
        obtain ⟨fq, -, rfl⟩ := List.mem_map.mp he
        rfl
      · intro e he
        split_ifs at he
        · rw [List.mem_singleton.mp he]; rfl
        · simp at he
      · split_ifs <;> simp
  · intro c u sess hs
    have hsess : sess = (maybeFlushSession d uid s t).session := by
      by_cases hg : t % u64 < s.last_seen_unix_micros
      · rw [maybeFlushSession_early d uid s t hg] at hs; simp at hs
      · rw [maybeFlushSession_out d uid s t hg, List.mem_append] at hs
        rcases hs with hs | hs
        · obtain ⟨fq, -, he⟩ := List.mem_map.mp hs
          simp at he
        · split_ifs at hs
          · have := List.mem_singleton.mp hs
            simp only [Emission.recordJoinedSession.injEq] at this
            exact this.2.2
          · simp at hs
    refine ⟨hsess, ?_⟩
    intro c2 u2 eid q hq
    rw [hsess]
    exact emitted_query_flushed d uid s t hupd hnd c2 u2 eid q hq

/-- C8 at `oneQuerySession`, evaluated at 1811 s: the query `q1` and the session are both
due, and the output is the query call followed by the session call, whose record holds
`q1` flushed. -/
theorem maybeFlushSession_emission_order_witness :
    (UpdateFrame exampleDecls.update ∧ (keys oneQuerySession.queries).Nodup) ∧
      (∀ (c u : String) (sess : TrackedSession),
        Emission.recordJoinedSession c u sess ∈
          (maybeFlushSession exampleDecls "u1" oneQuerySession 1811000000).out →
        sess = (maybeFlushSession exampleDecls "u1" oneQuerySession 1811000000).session ∧
        ∀ (c2 u2 eid : String) (q : TrackedQuery),
          Emission.recordJoinedQuery c2 u2 eid q ∈
            (maybeFlushSession exampleDecls "u1" oneQuerySession 1811000000).out →
          flushedOf sess eid = some true ∧ q.flushed = true) ∧
      (maybeFlushSession exampleDecls "u1" oneQuerySession 1811000000).out =
        [Emission.recordJoinedQuery "dawanda" "u1" "q1"
            { time := 0, flushed := true, attrs := [("qstr", "shoes")] },
          Emission.recordJoinedSession "dawanda" "u1"
            { oneQuerySession with
              queries := [("q1", { time := 0, flushed := true, attrs := [("qstr", "shoes")] })] }] :=
  ⟨⟨updateFrame_id, by decide⟩,
    (maybeFlushSession_emission_order exampleDecls "u1" oneQuerySession 1811000000
      updateFrame_id (by decide)).2,
    by decide⟩

/-! ## Flush pass: theorems -/

theorem flushLoop_due (d : Decls) (t clock : Nat) (rest : List (String × TrackedSession)) :
    ∀ (done : List (String × TrackedSession)) (out : List Emission),
      (∃ p ∈ rest, (maybeFlushSession d p.1 p.2 t).do_flush = true) →
      ∃ st, flushLoop d t clock done rest out = Run.undefinedBehaviour st := by
  induction rest with
  | nil => intro done out h; simp at h
  | cons a rest ih =>
    intro done out h
    obtain ⟨uid, session⟩ := a
    by_cases hd : (maybeFlushSession d uid session t).do_flush = true
    · simp only [flushLoop, hd, if_true]
      exact ⟨_, rfl⟩
    · obtain ⟨p, hp, hpd⟩ := h
      rcases List.mem_cons.mp hp with rfl | hp
      · exact absurd hpd hd
      · simp only [flushLoop, hd]
        exact ih _ _ ⟨p, hp, hpd⟩

/-- Whenever some session of the registry is due, the flush pass erases a session through
the loop iterator and then increments that iterator: it does not run to completion. -/
theorem flush_due_undefined (d : Decls) (svc : LogJoinService) (t : Nat)
    (h : ∃ p ∈ svc.sessions_, (maybeFlushSession d p.1 p.2 t).do_flush = true) :
    ∃ st, flush d svc t = Run.undefinedBehaviour st :=
  flushLoop_due d t svc.stream_clock_ svc.sessions_ [] svc.out_ h

/-- C6, at the failing input. Two sessions `u1` and `u2`, both last seen at time 0, and a
flush pass at stream time 1801 s with an idle timeout of 1800 s: both are due. The pass
emits and erases `u1` and then stops in undefined behaviour at `++iter`; `u2` is still in
the registry, was not evaluated, and no `recordJoinedSession` was made for it. -/
theorem flush_erase_invalidates_iterator :
    (maybeFlushSession exampleDecls "u2" idleSession 1801000000).do_flush = true ∧
      flush exampleDecls twoIdleSessions 1801000000 =
        Run.undefinedBehaviour
          { sessions_ := [("u2", idleSession)]
            stream_clock_ := 0
            out_ := [Emission.recordJoinedSession "dawanda" "u1" idleSession] } := by
  constructor
  · decide
  · decide

/-! ## Inserts: theorems -/

theorem setEntry_lookup_self {β : Type} (k : String) (v : β) (m : List (String × β))
    (h : m.lookup k = some v) : setEntry k v m = m := by
  induction m with
  | nil => rfl
  | cons a m ih =>
    obtain ⟨k1, v1⟩ := a
    by_cases hk : k1 = k
    · subst hk
      simp only [List.lookup_cons, beq_self_eq_true, Option.some.injEq] at h
      simp [setEntry, h]
    · have hne : (k == k1) = false := by
        simp only [beq_eq_false_iff_ne, ne_eq]
        exact fun h => hk h.symm
      rw [List.lookup_cons, hne] at h
      simp [setEntry, hk, ih h]

theorem lookup_setEntry {β : Type} (k : String) (v : β) (m : List (String × β)) :
    (setEntry k v m).lookup k = (m.lookup k).map (fun _ => v) := by
  induction m with
  | nil => rfl
  | cons a m ih =>
    obtain ⟨k1, v1⟩ := a
    by_cases hk : k1 = k
    · subst hk
      simp [setEntry]
    · have hne : (k == k1) = false := by
        simp only [beq_eq_false_iff_ne, ne_eq]
        exact fun h => hk h.symm
      simp only [setEntry, hk, if_false, List.lookup_cons, hne]
      exact ih

theorem lookup_setEntry_ne {β : Type} (k k2 : String) (v : β) (m : List (String × β))
    (h : k2 ≠ k) : (setEntry k v m).lookup k2 = m.lookup k2 := by
  induction m with
  | nil => rfl
  | cons a m ih =>
    obtain ⟨k1, v1⟩ := a
    by_cases hk : k1 = k
    · subst hk
      have hne : (k2 == k1) = false := by simpa using h
      simp [setEntry, List.lookup_cons, hne]
    · simp only [setEntry, hk, if_false, List.lookup_cons]
      cases (k2 == k1)
      · exact ih
      · rfl

theorem lookup_append_new {β : Type} (k : String) (v : β) (m : List (String × β))
    (h : m.lookup k = none) : (m ++ [(k, v)]).lookup k = some v := by
  induction m with
  | nil => simp [List.lookup_cons]
  | cons a m ih =>
    obtain ⟨k1, v1⟩ := a
    rw [List.lookup_cons] at h
    cases hb : (k == k1)
    · rw [hb] at h
      simp only [List.cons_append, List.lookup_cons, hb]
      exact ih h
    · rw [hb] at h; simp at h

theorem insertQuery_lookup (svc : LogJoinService) (customer uid eid : String)
    (query : TrackedQuery) :
    (insertQuery svc customer uid eid query).sessions_.lookup uid =
      some (((svc.sessions_.lookup uid).getD (TrackedSession.fresh customer)).insertQuery
        eid query) := by
  unfold insertQuery findOrCreateSession
  cases h : svc.sessions_.lookup uid with
  | none =>
    simp only [Option.getD_none]
    rw [lookup_setEntry, lookup_append_new uid _ _ h]
    rfl
  | some session =>
    simp only [Option.getD_some]
    rw [lookup_setEntry, h]
    rfl

theorem insertItemVisit_lookup (svc : LogJoinService) (customer uid eid : String)
    (visit : TrackedItemVisit) :
    (insertItemVisit svc customer uid eid visit).sessions_.lookup uid =
      some (((svc.sessions_.lookup uid).getD (TrackedSession.fresh customer)).insertItemVisit
        eid visit) := by
  unfold insertItemVisit findOrCreateSession
  cases h : svc.sessions_.lookup uid with
  | none =>
    simp only [Option.getD_none]
    rw [lookup_setEntry, lookup_append_new uid _ _ h]
    rfl
  | some session =>
    simp only [Option.getD_some]
    rw [lookup_setEntry, h]
    rfl

theorem TrackedSession.insertQuery_last_seen (s : TrackedSession) (eid : String)
    (query : TrackedQuery) :
    (s.insertQuery eid query).last_seen_unix_micros =
      max s.last_seen_unix_micros query.time := by
  unfold TrackedSession.insertQuery
  cases s.queries.lookup eid <;> dsimp only <;> split_ifs <;> dsimp only <;> omega

theorem TrackedSession.insertItemVisit_last_seen (s : TrackedSession) (eid : String)
    (visit : TrackedItemVisit) :
    (s.insertItemVisit eid visit).last_seen_unix_micros =
      max s.last_seen_unix_micros visit.time := by
  unfold TrackedSession.insertItemVisit
  cases s.item_visits.lookup eid <;> dsimp only <;> split_ifs <;> dsimp only <;> omega

theorem TrackedSession.insertQuery_queries (s : TrackedSession) (eid : String)
    (query : TrackedQuery) :
    (s.insertQuery eid query).queries =
      match s.queries.lookup eid with
      | none => s.queries ++ [(eid, query)]
      | some q => setEntry eid (q.merge query) s.queries := by
  unfold TrackedSession.insertQuery
  cases s.queries.lookup eid <;> dsimp only <;> split_ifs <;> rfl

/-- C9. Write-once-after-flush, with `TrackedQuery::merge` modelled from the spec: when the
session of `uid` stores under `eid` a query `q` with `flushed = true`, `insertQuery` of
another query event for the same `uid` and `eid` leaves the whole query map of the session
as it was, so `eid` still maps to `q` with its attributes and its flag, and it makes no
call on the output. -/
theorem insertQuery_flushed_rejected (svc : LogJoinService) (customer uid eid : String)
    (query : TrackedQuery) (session : TrackedSession) (q : TrackedQuery)
    (hs : svc.sessions_.lookup uid = some session) (hq : session.queries.lookup eid = some q)
    (hf : q.flushed = true) :
    (∃ session1 : TrackedSession,
        (insertQuery svc customer uid eid query).sessions_.lookup uid = some session1 ∧
        session1.queries = session.queries ∧
        session1.queries.lookup eid = some q) ∧
      (insertQuery svc customer uid eid query).out_ = svc.out_ := by
  have hm : q.merge query = q := by
    unfold TrackedQuery.merge
    rw [if_pos hf]
  have hqs : (session.insertQuery eid query).queries = session.queries := by
    rw [TrackedSession.insertQuery_queries, hq]
    dsimp only
    rw [hm]
    exact setEntry_lookup_self eid q session.queries hq
  constructor
  · refine ⟨session.insertQuery eid query, ?_, hqs, ?_⟩
    · rw [insertQuery_lookup, hs]; rfl
    · rw [hqs]; exact hq
  · unfold insertQuery findOrCreateSession
    rw [hs]

/-- C9 at `flushedQueryService`: a late event for the flushed query `q1` of `u1`, carrying
`clicked=1`, changes neither the stored query nor the output. -/
theorem insertQuery_flushed_rejected_witness :
    (flushedQueryService.sessions_.lookup "u1" =
        some { oneQuerySession with
          queries := [("q1", { time := 0, flushed := true, attrs := [("qstr", "shoes")] })] } ∧
      (maybeFlushSession exampleDecls "u1" oneQuerySession 901000000).session.queries.lookup "q1"
        = some { time := 0, flushed := true, attrs := [("qstr", "shoes")] }) ∧
      (insertQuery flushedQueryService "dawanda" "u1" "q1"
        { time := 902000000, flushed := false, attrs := [("clicked", "1")] }).out_ =
          flushedQueryService.out_ :=
  ⟨⟨by decide, by decide⟩,
    (insertQuery_flushed_rejected flushedQueryService "dawanda" "u1" "q1"
      { time := 902000000, flushed := false, attrs := [("clicked", "1")] }
      (maybeFlushSession exampleDecls "u1" oneQuerySession 901000000).session
      { time := 0, flushed := true, attrs := [("qstr", "shoes")] }
      (by decide) (by decide) rfl).2⟩

theorem maybeFlushSession_last_seen (d : Decls) (uid : String) (s : TrackedSession) (t : Nat)
    (hupd : UpdateFrame d.update) :
    (maybeFlushSession d uid s t).session.last_seen_unix_micros = s.last_seen_unix_micros := by
  by_cases h : t % u64 < s.last_seen_unix_micros
  · rw [maybeFlushSession_early d uid s t h]
  · exact (maybeFlushSession_frame d uid s t hupd h).2.1

theorem SessionOp.apply_last_seen (d : Decls) (uid : String) (hupd : UpdateFrame d.update)
    (s : TrackedSession) (op : SessionOp) :
    s.last_seen_unix_micros ≤ (op.apply d uid s).last_seen_unix_micros := by
  cases op with
  | insertQuery eid query =>
    have := TrackedSession.insertQuery_last_seen s eid query
    simp only [SessionOp.apply]
    omega
  | insertItemVisit eid visit =>
    have := TrackedSession.insertItemVisit_last_seen s eid visit
    simp only [SessionOp.apply]
    omega
  | maybeFlushSession t =>
    have := maybeFlushSession_last_seen d uid s t hupd
    simp only [SessionOp.apply]
    omega

theorem runOps_last_seen (d : Decls) (uid : String) (hupd : UpdateFrame d.update)
    (ops : List SessionOp) :
    ∀ s : TrackedSession, s.last_seen_unix_micros ≤ (runOps d uid s ops).last_seen_unix_micros := by
  induction ops with
  | nil => intro s; exact Nat.le_refl _
  | cons op ops ih =>
    intro s
    have h1 := SessionOp.apply_last_seen d uid hupd s op
    have h2 := ih (op.apply d uid s)
    simp only [runOps, List.foldl_cons] at h2 ⊢
    omega

/-- C10. `last_seen` update: the body of `insertQuery` and of `insertItemVisit` leaves the
session with `last_seen` equal to the maximum of the old `last_seen` and the event's
timestamp; so does the service operation for the session of `uid` (a session created by
the call starts from 0). Hence over any run of inserts and flush evaluations on a session
`last_seen` never decreases; for the flush evaluations `update` is assumed to keep
`last_seen` (`UpdateFrame`). -/
theorem last_seen_max (d : Decls) (uid : String) (hupd : UpdateFrame d.update) :
    (∀ (s : TrackedSession) (eid : String) (query : TrackedQuery),
        (s.insertQuery eid query).last_seen_unix_micros =
          max s.last_seen_unix_micros query.time) ∧
      (∀ (s : TrackedSession) (eid : String) (visit : TrackedItemVisit),
        (s.insertItemVisit eid visit).last_seen_unix_micros =
          max s.last_seen_unix_micros visit.time) ∧
      (∀ (svc : LogJoinService) (customer eid : String) (query : TrackedQuery),
        lastSeenOf (insertQuery svc customer uid eid query) uid =
          max (lastSeenOf svc uid) query.time) ∧
      (∀ (svc : LogJoinService) (customer eid : String) (visit : TrackedItemVisit),
        lastSeenOf (insertItemVisit svc customer uid eid visit) uid =
          max (lastSeenOf svc uid) visit.time) ∧
      (∀ (s : TrackedSession) (ops : List SessionOp) (op : SessionOp),
        s.last_seen_unix_micros ≤ (runOps d uid s ops).last_seen_unix_micros ∧
        (runOps d uid s ops).last_seen_unix_micros ≤
          (runOps d uid s (ops ++ [op])).last_seen_unix_micros) := by
  refine ⟨TrackedSession.insertQuery_last_seen, TrackedSession.insertItemVisit_last_seen,
    ?_, ?_, ?_⟩
  · intro svc customer eid query
    unfold lastSeenOf
    rw [insertQuery_lookup]
    simp only [Option.map_some', Option.getD_some, TrackedSession.insertQuery_last_seen]
    cases svc.sessions_.lookup uid <;> rfl
  · intro svc customer eid visit
    unfold lastSeenOf
    rw [insertItemVisit_lookup]
    simp only [Option.map_some', Option.getD_some, TrackedSession.insertItemVisit_last_seen]
    cases svc.sessions_.lookup uid <;> rfl
  · intro s ops op
    refine ⟨runOps_last_seen d uid hupd ops s, ?_⟩
    have : runOps d uid s (ops ++ [op]) = op.apply d uid (runOps d uid s ops) := by
      simp [runOps, List.foldl_append]
    rw [this]
    exact SessionOp.apply_last_seen d uid hupd _ op

/-- C10 at `oneQuerySession` (last seen at 10 s): an item visit of time 5 s, a flush
evaluation at 901 s and a query of time 20 s leave `last_seen` at 20 s. -/
theorem last_seen_max_witness :
    UpdateFrame exampleDecls.update ∧
      oneQuerySession.last_seen_unix_micros ≤
        (runOps exampleDecls "u1" oneQuerySession
          [SessionOp.insertItemVisit "v1" { time := 5000000, attrs := [("i", "p~1")] },
            SessionOp.maybeFlushSession 901000000,
            SessionOp.insertQuery "q2" { time := 20000000, flushed := false, attrs := [] }]
          ).last_seen_unix_micros ∧
      (runOps exampleDecls "u1" oneQuerySession
          [SessionOp.insertItemVisit "v1" { time := 5000000, attrs := [("i", "p~1")] },
            SessionOp.maybeFlushSession 901000000,
            SessionOp.insertQuery "q2" { time := 20000000, flushed := false, attrs := [] }]
          ).last_seen_unix_micros = 20000000 :=
  ⟨updateFrame_id,
    ((last_seen_max exampleDecls "u1" updateFrame_id).2.2.2.2 oneQuerySession
      [SessionOp.insertItemVisit "v1" { time := 5000000, attrs := [("i", "p~1")] },
        SessionOp.maybeFlushSession 901000000,
        SessionOp.insertQuery "q2" { time := 20000000, flushed := false, attrs := [] }]
      (SessionOp.maybeFlushSession 0)).1,
    by decide⟩

/-! ## Flush pass without a due session -/

theorem flushLoop_not_due (d : Decls) (t clock : Nat) (rest : List (String × TrackedSession)) :
    ∀ (done : List (String × TrackedSession)) (out : List Emission),
      (∀ p ∈ rest, (maybeFlushSession d p.1 p.2 t).do_flush = false) →
      flushLoop d t clock done rest out =
        Run.completed
          { sessions_ := done ++ rest.map (fun p => (p.1, (maybeFlushSession d p.1 p.2 t).session))
            stream_clock_ := clock
            out_ := out ++ (rest.map (fun p => (maybeFlushSession d p.1 p.2 t).out)).flatten } := by
  induction rest with
  | nil => intro done out _; simp [flushLoop]
  | cons a rest ih =>
    intro done out h
    obtain ⟨uid, session⟩ := a
    have hd : (maybeFlushSession d uid session t).do_flush = false :=
      h (uid, session) (List.mem_cons_self _ _)
    have hrest := ih (done ++ [(uid, (maybeFlushSession d uid session t).session)])
      (out ++ (maybeFlushSession d uid session t).out)
      (fun p hp => h p (List.mem_cons_of_mem _ hp))
    simp only [flushLoop, hd, Bool.false_eq_true, if_false]
    rw [hrest]
    simp [List.append_assoc]

theorem flush_completed (d : Decls) (svc : LogJoinService) (t : Nat)
    (h : noSessionDue d svc t) : flush d svc t = Run.completed (sweep d svc t) := by
  unfold flush sweep
  rw [flushLoop_not_due d t svc.stream_clock_ svc.sessions_ [] svc.out_ h]
  simp

theorem insertLogline_eq (d : LineDecls) (svc : LogJoinService) (customer : String)
    (time : Nat) (line : String)
    (h : noSessionDue d.toDecls (streamTime svc time).2 (streamTime svc time).1) :
    insertLogline d svc customer time line =
      decodeAndInsert d (sweep d.toDecls (streamTime svc time).2 (streamTime svc time).1)
        customer time (d.parseQueryString line) := by
  unfold insertLogline
  simp only [flush_completed d.toDecls _ _ h]

/-! ## Decoding of the identity parameter -/

theorem find_of_split (c : String) (u e : List Char) (hc : c.toList = u ++ '~' :: e)
    (hu : '~' ∉ u) : find c '~' = some u.length := by
  unfold find
  rw [hc, List.indexOf_append_of_not_mem hu, List.indexOf_cons_self]
  simp

theorem find_none (c : String) (hc : '~' ∉ c.toList) : find c '~' = none := by
  unfold find
  rw [List.indexOf_eq_length.mpr hc]
  simp

theorem substr_uid (c : String) (u e : List Char) (hc : c.toList = u ++ '~' :: e) :
    substr c 0 u.length = String.mk u := by
  unfold substr
  rw [hc]
  simp

theorem substr_eid (c : String) (u e : List Char) (hc : c.toList = u ++ '~' :: e) :
    substr c (u.length + 1) (c.length - u.length - 1) = String.mk e := by
  have hlen : c.length = u.length + (e.length + 1) := by
    have : c.length = c.toList.length := rfl
    rw [this, hc]
    simp
  unfold substr
  rw [hc, hlen]
  have hdrop : List.drop (u.length + 1) (u ++ '~' :: e) = e := by
    rw [List.drop_append_eq_append_drop]
    simp
  rw [hdrop]
  congr 1
  apply List.take_of_length_le
  omega

theorem decodeAndInsert_c_missing (d : LineDecls) (svc : LogJoinService) (customer : String)
    (time : Nat) (params : ParamList) (h : getParam params "c" = none) :
    decodeAndInsert d svc customer time params =
      LineResult.raised ErrorKind.kParseError "c param is missing" svc := by
  unfold decodeAndInsert
  rw [h]

theorem decodeAndInsert_c_no_separator (d : LineDecls) (svc : LogJoinService)
    (customer : String) (time : Nat) (params : ParamList) (c : String)
    (h : getParam params "c" = some c) (hsep : '~' ∉ c.toList) :
    decodeAndInsert d svc customer time params =
      LineResult.raised ErrorKind.kParseError "c param is invalid" svc := by
  unfold decodeAndInsert
  rw [h]
  simp only [find_none c hsep]

theorem decodeAndInsert_c_empty_half (d : LineDecls) (svc : LogJoinService)
    (customer : String) (time : Nat) (params : ParamList) (c : String) (u e : List Char)
    (h : getParam params "c" = some c) (hc : c.toList = u ++ '~' :: e) (hu : '~' ∉ u)
    (hempty : u = [] ∨ e = []) :
    decodeAndInsert d svc customer time params =
      LineResult.raised ErrorKind.kParseError "c param is invalid" svc := by
  unfold decodeAndInsert
  rw [h]
  simp only [find_of_split c u e hc hu, substr_uid c u e hc, substr_eid c u e hc]
  rw [if_pos]
  rcases hempty with h1 | h1
  · left; rw [h1]; rfl
  · right; rw [h1]; rfl

theorem decodeAndInsert_c_valid (d : LineDecls) (svc : LogJoinService)
    (customer : String) (time : Nat) (params : ParamList) (c : String) (u e : List Char)
    (h : getParam params "c" = some c) (hc : c.toList = u ++ '~' :: e) (hu : '~' ∉ u)
    (hu0 : u ≠ []) (he0 : e ≠ []) :
    decodeAndInsert d svc customer time params =
      match getParam params "e" with
      | none => LineResult.raised ErrorKind.kParseError "e param is missing" svc
      | some evtype =>
        match evtype.toList with
        | [ch] => processEvent d svc customer time params (String.mk u) (String.mk e) ch
        | _ => LineResult.raised ErrorKind.kParseError "e param is missing" svc := by
  unfold decodeAndInsert
  rw [h]
  simp only [find_of_split c u e hc hu, substr_uid c u e hc, substr_eid c u e hc]
  rw [if_neg]
  intro hor
  rcases hor with h1 | h1
  · exact hu0 (List.length_eq_zero.mp h1)
  · exact he0 (List.length_eq_zero.mp h1)

theorem toList_singleton_of_length (evtype : String) :
    evtype.length = 1 ↔ ∃ ch, evtype.toList = [ch] := by
  have : evtype.length = evtype.toList.length := rfl
  rw [this, List.length_eq_one]

/-- C13. Identity parameter validation, for a call whose flush pass finds no session due
(`svc1` below is the state after that pass). `insertLogline` raises a `kParseError` when
the parameter `c` is absent, when its value has no `~`, and when the text before the first
`~` (the uid) or the text after it (the event id) is empty. When the value is
`u ++ "~" ++ e` with `u` free of `~` and both `u` and `e` non-empty, the call does not
raise either of the two errors about `c`. -/
theorem insertLogline_identity_validation (d : LineDecls) (svc : LogJoinService)
    (customer : String) (time : Nat) (line : String)
    (hnd : noSessionDue d.toDecls (streamTime svc time).2 (streamTime svc time).1) :
    (getParam (d.parseQueryString line) "c" = none →
        insertLogline d svc customer time line =
          LineResult.raised ErrorKind.kParseError "c param is missing"
            (sweep d.toDecls (streamTime svc time).2 (streamTime svc time).1)) ∧
      (∀ c : String, getParam (d.parseQueryString line) "c" = some c → '~' ∉ c.toList →
        insertLogline d svc customer time line =
          LineResult.raised ErrorKind.kParseError "c param is invalid"
            (sweep d.toDecls (streamTime svc time).2 (streamTime svc time).1)) ∧
      (∀ (c : String) (u e : List Char), getParam (d.parseQueryString line) "c" = some c →
        c.toList = u ++ '~' :: e → '~' ∉ u → (u = [] ∨ e = []) →
        insertLogline d svc customer time line =
          LineResult.raised ErrorKind.kParseError "c param is invalid"
            (sweep d.toDecls (streamTime svc time).2 (streamTime svc time).1)) ∧
      (∀ (c : String) (u e : List Char), getParam (d.parseQueryString line) "c" = some c →
        c.toList = u ++ '~' :: e → '~' ∉ u → u ≠ [] → e ≠ [] →
        ∀ (kind : ErrorKind) (svc2 : LogJoinService),
          insertLogline d svc customer time line ≠
            LineResult.raised kind "c param is missing" svc2 ∧
          insertLogline d svc customer time line ≠
            LineResult.raised kind "c param is invalid" svc2) := by
  rw [insertLogline_eq d svc customer time line hnd]
  refine ⟨decodeAndInsert_c_missing d _ customer time _, ?_, ?_, ?_⟩
  · intro c h hsep
    exact decodeAndInsert_c_no_separator d _ customer time _ c h hsep
  · intro c u e h hc hu hempty
    exact decodeAndInsert_c_empty_half d _ customer time _ c u e h hc hu hempty
  · intro c u e h hc hu hu0 he0 kind svc2
    rw [decodeAndInsert_c_valid d _ customer time _ c u e h hc hu hu0 he0]
    have hm1 : ("e param is missing" : String) ≠ "c param is missing" := by decide
    have hm2 : ("e param is missing" : String) ≠ "c param is invalid" := by decide
    have hm3 : ("invalid e param" : String) ≠ "c param is missing" := by decide
    have hm4 : ("invalid e param" : String) ≠ "c param is invalid" := by decide
    cases getParam (d.parseQueryString line) "e" with
    | none => simp [hm1, hm2]
    | some evtype =>
      dsimp only
      split
      · unfold processEvent
        split_ifs <;> simp [hm3, hm4]
      · simp [hm1, hm2]

/-- C13 on a fresh service: the line `e=q` has no parameter `c`. -/
theorem insertLogline_identity_validation_witness :
    (noSessionDue exampleLineDecls.toDecls (streamTime LogJoinService.new 0).2
        (streamTime LogJoinService.new 0).1 ∧
      getParam (exampleLineDecls.parseQueryString "e=q") "c" = none) ∧
      insertLogline exampleLineDecls LogJoinService.new "dawanda" 0 "e=q" =
        LineResult.raised ErrorKind.kParseError "c param is missing"
          (sweep exampleLineDecls.toDecls (streamTime LogJoinService.new 0).2
            (streamTime LogJoinService.new 0).1) :=
  ⟨⟨by unfold noSessionDue; decide, by decide⟩,
    (insertLogline_identity_validation exampleLineDecls LogJoinService.new "dawanda" 0 "e=q"
      (by unfold noSessionDue; decide)).1 (by decide)⟩

/-- C14. Event-type parameter validation, for a call whose flush pass finds no session
due and whose parameter `c` is valid (`u ++ "~" ++ e`, `u` free of `~`, both non-empty):
`insertLogline` raises a `kParseError` when the parameter `e` is absent and when its value
is not exactly one character long. -/
theorem insertLogline_event_type_validation (d : LineDecls) (svc : LogJoinService)
    (customer : String) (time : Nat) (line : String) (c : String) (u e : List Char)
    (hnd : noSessionDue d.toDecls (streamTime svc time).2 (streamTime svc time).1)
    (h : getParam (d.parseQueryString line) "c" = some c) (hc : c.toList = u ++ '~' :: e)
    (hu : '~' ∉ u) (hu0 : u ≠ []) (he0 : e ≠ []) :
    (getParam (d.parseQueryString line) "e" = none →
        insertLogline d svc customer time line =
          LineResult.raised ErrorKind.kParseError "e param is missing"
            (sweep d.toDecls (streamTime svc time).2 (streamTime svc time).1)) ∧
      (∀ evtype : String, getParam (d.parseQueryString line) "e" = some evtype →
        evtype.length ≠ 1 →
        insertLogline d svc customer time line =
          LineResult.raised ErrorKind.kParseError "e param is missing"
            (sweep d.toDecls (streamTime svc time).2 (streamTime svc time).1)) := by
  rw [insertLogline_eq d svc customer time line hnd,
    decodeAndInsert_c_valid d _ customer time _ c u e h hc hu hu0 he0]
  constructor
  · intro he; rw [he]
  · intro evtype he hlen
    rw [he]
    dsimp only
    split
    · rename_i ch hch
      exact absurd ((toList_singleton_of_length evtype).mpr ⟨ch, hch⟩) hlen
    · rfl

/-- C14 on a fresh service: the line `c=u1~q1&e=qq` has an event type of two characters. -/
theorem insertLogline_event_type_validation_witness :
    (noSessionDue exampleLineDecls.toDecls (streamTime LogJoinService.new 0).2
        (streamTime LogJoinService.new 0).1 ∧
      getParam (exampleLineDecls.parseQueryString "c=u1~q1&e=qq") "c" = some "u1~q1" ∧
      getParam (exampleLineDecls.parseQueryString "c=u1~q1&e=qq") "e" = some "qq") ∧
      insertLogline exampleLineDecls LogJoinService.new "dawanda" 0 "c=u1~q1&e=qq" =
        LineResult.raised ErrorKind.kParseError "e param is missing"
          (sweep exampleLineDecls.toDecls (streamTime LogJoinService.new 0).2
            (streamTime LogJoinService.new 0).1) :=
  ⟨⟨by unfold noSessionDue; decide, by decide, by decide⟩,
    (insertLogline_event_type_validation exampleLineDecls LogJoinService.new "dawanda" 0
      "c=u1~q1&e=qq" "u1~q1" ['u', '1'] ['q', '1'] (by unfold noSessionDue; decide)
      (by decide) (by decide) (by decide) (by decide) (by decide)).2 "qq" (by decide)
      (by decide)⟩

theorem insertLogline_event (d : LineDecls) (svc : LogJoinService) (customer : String)
    (time : Nat) (line : String) (c : String) (u e : List Char) (evtype : String) (ch : Char)
    (hnd : noSessionDue d.toDecls (streamTime svc time).2 (streamTime svc time).1)
    (h : getParam (d.parseQueryString line) "c" = some c) (hc : c.toList = u ++ '~' :: e)
    (hu : '~' ∉ u) (hu0 : u ≠ []) (he0 : e ≠ [])
    (he : getParam (d.parseQueryString line) "e" = some evtype) (hch : evtype.toList = [ch]) :
    insertLogline d svc customer time line =
      processEvent d (sweep d.toDecls (streamTime svc time).2 (streamTime svc time).1)
        customer time (d.parseQueryString line) (String.mk u) (String.mk e) ch := by
  rw [insertLogline_eq d svc customer time line hnd,
    decodeAndInsert_c_valid d _ customer time _ c u e h hc hu hu0 he0, he]
  dsimp only
  rw [hch]

/-- C15 as stated fails: on a fresh service the line `c=u1~e1&e=x`, whose event type is
not among the documented ones, makes
`insertLogline` raise a `kParseError`, with the message `invalid e param`, and not an
error of the kind `UnsupportedEventError`. -/
theorem insertLogline_unknown_event_is_parse_error :
    insertLogline exampleLineDecls LogJoinService.new "dawanda" 0 "c=u1~e1&e=x" =
        LineResult.raised ErrorKind.kParseError "invalid e param" LogJoinService.new ∧
      ∀ (msg : String) (svc : LogJoinService),
        insertLogline exampleLineDecls LogJoinService.new "dawanda" 0 "c=u1~e1&e=x" ≠
          LineResult.raised ErrorKind.UnsupportedEventError msg svc := by
  have h : insertLogline exampleLineDecls LogJoinService.new "dawanda" 0 "c=u1~e1&e=x" =
      LineResult.raised ErrorKind.kParseError "invalid e param" LogJoinService.new := by
    decide
  refine ⟨h, ?_⟩
  intro msg svc
  rw [h]
  simp

/-- C15, amended. For a call whose flush pass finds no session due, with a valid parameter
`c` (`u ++ "~" ++ e`, `u` free of `~`, both non-empty) and a one-character parameter `e`:
a character other than `q` and `v` makes `insertLogline` raise a `kParseError` with the
message `invalid e param`, the same kind of error as for a malformed line; `q` builds a
query (time of the event, not flushed, filled by `fromParams`) and inserts it, `v` builds
an item visit and inserts it. -/
theorem insertLogline_event_dispatch (d : LineDecls) (svc : LogJoinService)
    (customer : String) (time : Nat) (line : String) (c : String) (u e : List Char)
    (evtype : String) (ch : Char)
    (hnd : noSessionDue d.toDecls (streamTime svc time).2 (streamTime svc time).1)
    (h : getParam (d.parseQueryString line) "c" = some c) (hc : c.toList = u ++ '~' :: e)
    (hu : '~' ∉ u) (hu0 : u ≠ []) (he0 : e ≠ [])
    (he : getParam (d.parseQueryString line) "e" = some evtype) (hch : evtype.toList = [ch]) :
    (ch ≠ 'q' → ch ≠ 'v' →
        insertLogline d svc customer time line =
          LineResult.raised ErrorKind.kParseError "invalid e param"
            (sweep d.toDecls (streamTime svc time).2 (streamTime svc time).1)) ∧
      (ch = 'q' →
        insertLogline d svc customer time line =
          LineResult.returned
            (insertQuery (sweep d.toDecls (streamTime svc time).2 (streamTime svc time).1)
              customer (String.mk u) (String.mk e)
              (d.queryFromParams { time := time, flushed := false, attrs := [] }
                (d.parseQueryString line)))) ∧
      (ch = 'v' →
        insertLogline d svc customer time line =
          LineResult.returned
            (insertItemVisit (sweep d.toDecls (streamTime svc time).2 (streamTime svc time).1)
              customer (String.mk u) (String.mk e)
              (d.visitFromParams { time := time, attrs := [] } (d.parseQueryString line)))) := by
  rw [insertLogline_event d svc customer time line c u e evtype ch hnd h hc hu hu0 he0 he hch]
  unfold processEvent
  refine ⟨?_, ?_, ?_⟩
  · intro hq hv
    rw [if_neg hq, if_neg hv]
  · intro hq
    rw [if_pos hq]
  · intro hv
    have hq : ch ≠ 'q' := by rw [hv]; decide
    rw [if_neg hq, if_pos hv]

/-- C15, amended, on a fresh service: the line `c=u1~e1&e=x` raises a
`kParseError`. -/
theorem insertLogline_event_dispatch_witness :
    (noSessionDue exampleLineDecls.toDecls (streamTime LogJoinService.new 0).2
        (streamTime LogJoinService.new 0).1 ∧
      getParam (exampleLineDecls.parseQueryString "c=u1~e1&e=x") "c" = some "u1~e1" ∧
      getParam (exampleLineDecls.parseQueryString "c=u1~e1&e=x") "e" = some "x") ∧
      insertLogline exampleLineDecls LogJoinService.new "dawanda" 0 "c=u1~e1&e=x" =
        LineResult.raised ErrorKind.kParseError "invalid e param"
          (sweep exampleLineDecls.toDecls (streamTime LogJoinService.new 0).2
            (streamTime LogJoinService.new 0).1) :=
  ⟨⟨by unfold noSessionDue; decide, by decide, by decide⟩,
    (insertLogline_event_dispatch exampleLineDecls LogJoinService.new "dawanda" 0
      "c=u1~e1&e=x" "u1~e1" ['u', '1'] ['e', '1'] "x" 'x' (by unfold noSessionDue; decide)
      (by decide) (by decide) (by decide) (by decide) (by decide) (by decide)
      (by decide)).1 (by decide) (by decide)⟩

/-! ## Insert of a new event id -/

theorem lookup_append_ne {β : Type} (k k2 : String) (v : β) (m : List (String × β))
    (h : k2 ≠ k) : (m ++ [(k, v)]).lookup k2 = m.lookup k2 := by
  induction m with
  | nil =>
    have hne : (k2 == k) = false := by simpa using h
    simp [List.lookup_cons, hne]
  | cons a m ih =>
    obtain ⟨k1, v1⟩ := a
    simp only [List.cons_append, List.lookup_cons]
    cases (k2 == k1)
    · exact ih
    · rfl

theorem setEntry_append_new {β : Type} (k : String) (v0 v : β) (m : List (String × β))
    (h : m.lookup k = none) : setEntry k v (m ++ [(k, v0)]) = m ++ [(k, v)] := by
  induction m with
  | nil => simp [setEntry]
  | cons a m ih =>
    obtain ⟨k1, v1⟩ := a
    rw [List.lookup_cons] at h
    cases hb : (k == k1)
    · rw [hb] at h
      have hne : k1 ≠ k := by
        intro heq
        rw [heq] at hb
        simp at hb
      have h2 : m.lookup k = none := h
      show setEntry k v ((k1, v1) :: (m ++ [(k, v0)])) = (k1, v1) :: (m ++ [(k, v)])
      rw [setEntry, if_neg hne, ih h2]
    · rw [hb] at h; simp at h

theorem TrackedSession.insertQuery_absent (s : TrackedSession) (eid : String)
    (query : TrackedQuery) (h : s.queries.lookup eid = none) :
    s.insertQuery eid query =
      { s with
        queries := s.queries ++ [(eid, query)]
        last_seen_unix_micros := max s.last_seen_unix_micros query.time } := by
  unfold TrackedSession.insertQuery
  rw [h]
  dsimp only
  split_ifs with hgt
  · rw [Nat.max_eq_right (Nat.le_of_lt hgt)]
  · rw [Nat.max_eq_left (Nat.le_of_not_lt hgt)]

theorem TrackedSession.insertItemVisit_absent (s : TrackedSession) (eid : String)
    (visit : TrackedItemVisit) (h : s.item_visits.lookup eid = none) :
    s.insertItemVisit eid visit =
      { s with
        item_visits := s.item_visits ++ [(eid, visit)]
        last_seen_unix_micros := max s.last_seen_unix_micros visit.time } := by
  unfold TrackedSession.insertItemVisit
  rw [h]
  dsimp only
  split_ifs with hgt
  · rw [Nat.max_eq_right (Nat.le_of_lt hgt)]
  · rw [Nat.max_eq_left (Nat.le_of_not_lt hgt)]

theorem insertQuery_new_uid (svc : LogJoinService) (customer uid eid : String)
    (query : TrackedQuery) (h : svc.sessions_.lookup uid = none) :
    insertQuery svc customer uid eid query =
      { svc with
        sessions_ := svc.sessions_ ++
          [(uid, { customer := customer, queries := [(eid, query)], item_visits := [],
                   last_seen_unix_micros := query.time })] } := by
  unfold insertQuery findOrCreateSession
  rw [h]
  dsimp only
  rw [setEntry_append_new uid _ _ svc.sessions_ h,
    TrackedSession.insertQuery_absent (TrackedSession.fresh customer) eid query rfl]
  simp [TrackedSession.fresh]

theorem insertItemVisit_new_uid (svc : LogJoinService) (customer uid eid : String)
    (visit : TrackedItemVisit) (h : svc.sessions_.lookup uid = none) :
    insertItemVisit svc customer uid eid visit =
      { svc with
        sessions_ := svc.sessions_ ++
          [(uid, { customer := customer, queries := [], item_visits := [(eid, visit)],
                   last_seen_unix_micros := visit.time })]
        out_ := svc.out_ ++ [Emission.recordJoinedItemVisit customer uid eid visit] } := by
  unfold insertItemVisit findOrCreateSession
  rw [h]
  dsimp only
  rw [setEntry_append_new uid _ _ svc.sessions_ h,
    TrackedSession.insertItemVisit_absent (TrackedSession.fresh customer) eid visit rfl]
  simp [TrackedSession.fresh]

theorem noSessionDue_new (d : Decls) (t : Nat) :
    noSessionDue d (streamTime LogJoinService.new t).2 (streamTime LogJoinService.new t).1 := by
  intro p hp
  have : (streamTime LogJoinService.new t).2.sessions_ = [] := by
    unfold streamTime; split_ifs <;> rfl
  rw [this] at hp
  cases hp

theorem sweep_new (d : Decls) (t : Nat) :
    sweep d (streamTime LogJoinService.new t).2 (streamTime LogJoinService.new t).1 =
      { sessions_ := [], stream_clock_ := t, out_ := [] } := by
  unfold sweep streamTime LogJoinService.new
  split_ifs with h
  · rfl
  · have : t = 0 := by simp at h; exact h
    subst this
    rfl

/-- C11. Insert-if-absent. (1) When `eid` is not in the query map of a session, the body
of `insertQuery` appends the one entry `eid -> query`; every other query entry and the
item visits are unchanged. (2) The same for `insertItemVisit` and the item-visit map.
(3) For a `uid` without a session, `insertQuery` and `insertItemVisit` add one session that
holds exactly that record. (4) The query and the visit that `insertLogline` builds carry
the time of the event, and the query is not flushed, when `fromParams` keeps these
(`FromParamsFrame`). (5) On a fresh service a valid query line yields one session holding
exactly the one query built from the line. -/
theorem insert_if_absent (d : LineDecls) :
    (∀ (s : TrackedSession) (eid : String) (query : TrackedQuery),
        s.queries.lookup eid = none →
        (s.insertQuery eid query).queries = s.queries ++ [(eid, query)] ∧
        (s.insertQuery eid query).queries.lookup eid = some query ∧
        (∀ e2 : String, e2 ≠ eid →
          (s.insertQuery eid query).queries.lookup e2 = s.queries.lookup e2) ∧
        (s.insertQuery eid query).item_visits = s.item_visits) ∧
      (∀ (s : TrackedSession) (eid : String) (visit : TrackedItemVisit),
        s.item_visits.lookup eid = none →
        (s.insertItemVisit eid visit).item_visits = s.item_visits ++ [(eid, visit)] ∧
        (s.insertItemVisit eid visit).item_visits.lookup eid = some visit ∧
        (∀ e2 : String, e2 ≠ eid →
          (s.insertItemVisit eid visit).item_visits.lookup e2 = s.item_visits.lookup e2) ∧
        (s.insertItemVisit eid visit).queries = s.queries) ∧
      (∀ (svc : LogJoinService) (customer uid eid : String) (query : TrackedQuery),
        svc.sessions_.lookup uid = none →
        insertQuery svc customer uid eid query =
          { svc with
            sessions_ := svc.sessions_ ++
              [(uid, { customer := customer, queries := [(eid, query)], item_visits := [],
                       last_seen_unix_micros := query.time })] }) ∧
      (∀ (svc : LogJoinService) (customer uid eid : String) (visit : TrackedItemVisit),
        svc.sessions_.lookup uid = none →
        insertItemVisit svc customer uid eid visit =
          { svc with
            sessions_ := svc.sessions_ ++
              [(uid, { customer := customer, queries := [], item_visits := [(eid, visit)],
                       last_seen_unix_micros := visit.time })]
            out_ := svc.out_ ++ [Emission.recordJoinedItemVisit customer uid eid visit] }) ∧
      (FromParamsFrame d → ∀ (time : Nat) (params : ParamList),
        (d.queryFromParams { time := time, flushed := false, attrs := [] } params).time = time ∧
        (d.queryFromParams { time := time, flushed := false, attrs := [] } params).flushed
          = false ∧
        (d.visitFromParams { time := time, attrs := [] } params).time = time) ∧
      (∀ (customer : String) (time : Nat) (line c : String) (u e : List Char)
          (evtype : String),
        getParam (d.parseQueryString line) "c" = some c → c.toList = u ++ '~' :: e →
        '~' ∉ u → u ≠ [] → e ≠ [] →
        getParam (d.parseQueryString line) "e" = some evtype → evtype.toList = ['q'] →
        insertLogline d LogJoinService.new customer time line =
          LineResult.returned
            { sessions_ :=
                [(String.mk u,
                  { customer := customer
                    queries := [(String.mk e,
                      d.queryFromParams { time := time, flushed := false, attrs := [] }
                        (d.parseQueryString line))]
                    item_visits := []
                    last_seen_unix_micros :=
                      (d.queryFromParams { time := time, flushed := false, attrs := [] }
                        (d.parseQueryString line)).time })]
              stream_clock_ := time
              out_ := [] }) := by
  refine ⟨?_, ?_, insertQuery_new_uid, insertItemVisit_new_uid, ?_, ?_⟩
  · intro s eid query h
    rw [TrackedSession.insertQuery_absent s eid query h]
    exact ⟨rfl, lookup_append_new eid query s.queries h,
      fun e2 h2 => lookup_append_ne eid e2 query s.queries h2, rfl⟩
  · intro s eid visit h
    rw [TrackedSession.insertItemVisit_absent s eid visit h]
    exact ⟨rfl, lookup_append_new eid visit s.item_visits h,
      fun e2 h2 => lookup_append_ne eid e2 visit s.item_visits h2, rfl⟩
  · intro hf time params
    exact ⟨(hf.1 _ params).1, (hf.1 _ params).2, hf.2 _ params⟩
  · intro customer time line c u e evtype h hc hu hu0 he0 he hch
    rw [insertLogline_event d LogJoinService.new customer time line c u e evtype 'q'
      (noSessionDue_new d.toDecls time) h hc hu hu0 he0 he hch, sweep_new]
    unfold processEvent
    rw [if_pos rfl,
      insertQuery_new_uid { sessions_ := [], stream_clock_ := time, out_ := [] } customer
        (String.mk u) (String.mk e) _ rfl]
    rfl

/-- C11 on a fresh service: the line `c=u1~q1&e=q&qstr=shoes` at time 0 yields the session
`u1` with the one unflushed query `q1`. -/
theorem insert_if_absent_witness :
    (getParam (exampleLineDecls.parseQueryString "c=u1~q1&e=q&qstr=shoes") "c" = some "u1~q1" ∧
      getParam (exampleLineDecls.parseQueryString "c=u1~q1&e=q&qstr=shoes") "e" = some "q") ∧
      insertLogline exampleLineDecls LogJoinService.new "dawanda" 0 "c=u1~q1&e=q&qstr=shoes" =
        LineResult.returned
          { sessions_ :=
              [("u1",
                { customer := "dawanda"
                  queries := [("q1",
                    { time := 0, flushed := false,
                      attrs := [("c", "u1~q1"), ("e", "q"), ("qstr", "shoes")] })]
                  item_visits := []
                  last_seen_unix_micros := 0 })]
            stream_clock_ := 0
            out_ := [] } :=
  ⟨⟨by decide, by decide⟩,
    (insert_if_absent exampleLineDecls).2.2.2.2.2 "dawanda" 0 "c=u1~q1&e=q&qstr=shoes"
      "u1~q1" ['u', '1'] ['q', '1'] "q" (by decide) (by decide) (by decide) (by decide)
      (by decide) (by decide) (by decide)⟩

/-! ## Idempotent merge -/

theorem setAttr_lookup_self (k v : String) (m : ParamList) (h : m.lookup k = some v) :
    setAttr k v m = m := by
  induction m with
  | nil => simp at h
  | cons a m ih =>
    obtain ⟨k1, v1⟩ := a
    by_cases hk : k1 = k
    · subst hk
      simp only [List.lookup_cons, beq_self_eq_true, Option.some.injEq] at h
      simp [setAttr, h]
    · have hne : (k == k1) = false := by
        simp only [beq_eq_false_iff_ne, ne_eq]
        exact fun h => hk h.symm
      rw [List.lookup_cons, hne] at h
      simp [setAttr, hk, ih h]

theorem lookup_setAttr_self (k v : String) (m : ParamList) :
    (setAttr k v m).lookup k = some v := by
  induction m with
  | nil => simp [setAttr, List.lookup_cons]
  | cons a m ih =>
    obtain ⟨k1, v1⟩ := a
    by_cases hk : k1 = k
    · subst hk
      simp [setAttr, List.lookup_cons]
    · have hne : (k == k1) = false := by
        simp only [beq_eq_false_iff_ne, ne_eq]
        exact fun h => hk h.symm
      simp only [setAttr, hk, if_false, List.lookup_cons, hne]
      exact ih

theorem lookup_setAttr_ne (k k2 v : String) (m : ParamList) (h : k2 ≠ k) :
    (setAttr k v m).lookup k2 = m.lookup k2 := by
  have hne : (k2 == k) = false := by simpa using h
  induction m with
  | nil => simp [setAttr, List.lookup_cons, hne]
  | cons a m ih =>
    obtain ⟨k1, v1⟩ := a
    by_cases hk : k1 = k
    · subst hk
      simp [setAttr, List.lookup_cons, hne]
    · simp only [setAttr, hk, if_false, List.lookup_cons]
      cases (k2 == k1)
      · exact ih
      · rfl

theorem mergeAttrs_cons (a : ParamList) (kv : String × String) (b : ParamList) :
    mergeAttrs a (kv :: b) = mergeAttrs (setAttr kv.1 kv.2 a) b := rfl

theorem mergeAttrs_fixed (b : ParamList) :
    ∀ m : ParamList, (∀ kv ∈ b, m.lookup kv.1 = some kv.2) → mergeAttrs m b = m := by
  induction b with
  | nil => intro m _; rfl
  | cons kv b ih =>
    intro m h
    rw [mergeAttrs_cons, setAttr_lookup_self kv.1 kv.2 m (h kv (List.mem_cons_self _ _))]
    exact ih m (fun x hx => h x (List.mem_cons_of_mem _ hx))

theorem lookup_mergeAttrs_absent (k : String) (b : ParamList) :
    ∀ a : ParamList, k ∉ keys b → (mergeAttrs a b).lookup k = a.lookup k := by
  induction b with
  | nil => intro a _; rfl
  | cons kv b ih =>
    intro a h
    simp only [keys, List.map_cons, List.mem_cons, not_or] at h
    rw [mergeAttrs_cons, ih _ h.2, lookup_setAttr_ne kv.1 k kv.2 a h.1]

theorem lookup_mergeAttrs_mem (b : ParamList) :
    ∀ a : ParamList, (keys b).Nodup → ∀ kv ∈ b, (mergeAttrs a b).lookup kv.1 = some kv.2 := by
  induction b with
  | nil => intro a _ kv hkv; simp at hkv
  | cons kv0 b ih =>
    intro a hnd kv hkv
    simp only [keys, List.map_cons, List.nodup_cons] at hnd
    rw [mergeAttrs_cons]
    rcases List.mem_cons.mp hkv with heq | hmem
    · rw [heq, lookup_mergeAttrs_absent kv0.1 b _ hnd.1, lookup_setAttr_self]
    · exact ih _ hnd.2 kv hmem

theorem mergeAttrs_idem (a b : ParamList) (hnd : (keys b).Nodup) :
    mergeAttrs (mergeAttrs a b) b = mergeAttrs a b :=
  mergeAttrs_fixed b _ (lookup_mergeAttrs_mem b a hnd)

theorem mergeAttrs_self (b : ParamList) (hnd : (keys b).Nodup) : mergeAttrs b b = b :=
  mergeAttrs_fixed b b (fun kv hkv => lookup_of_mem kv.1 kv.2 b hnd hkv)

theorem TrackedQuery.merge_self (q : TrackedQuery) (hnd : (keys q.attrs).Nodup) :
    q.merge q = q := by
  unfold TrackedQuery.merge
  split_ifs
  · rfl
  · rw [mergeAttrs_self q.attrs hnd]

theorem TrackedQuery.merge_merge (q0 q : TrackedQuery) (hnd : (keys q.attrs).Nodup) :
    (q0.merge q).merge q = q0.merge q := by
  unfold TrackedQuery.merge
  by_cases hf : q0.flushed = true
  · simp [hf]
  · simp only [hf, if_false, Bool.false_eq_true]
    rw [mergeAttrs_idem q0.attrs q.attrs hnd]

theorem TrackedSession.insertQuery_present (s : TrackedSession) (eid : String)
    (query q0 : TrackedQuery) (h : s.queries.lookup eid = some q0) :
    s.insertQuery eid query =
      { s with
        queries := setEntry eid (q0.merge query) s.queries
        last_seen_unix_micros := max s.last_seen_unix_micros query.time } := by
  unfold TrackedSession.insertQuery
  rw [h]
  dsimp only
  split_ifs with hgt
  · rw [Nat.max_eq_right (Nat.le_of_lt hgt)]
  · rw [Nat.max_eq_left (Nat.le_of_not_lt hgt)]

theorem TrackedSession.insertQuery_fixed (s : TrackedSession) (eid : String)
    (query q1 : TrackedQuery) (h : s.queries.lookup eid = some q1)
    (hm : q1.merge query = q1) (ht : query.time ≤ s.last_seen_unix_micros) :
    s.insertQuery eid query = s := by
  rw [TrackedSession.insertQuery_present s eid query q1 h, hm,
    setEntry_lookup_self eid q1 s.queries h, Nat.max_eq_left ht]

theorem TrackedSession.insertQuery_idem (s : TrackedSession) (eid : String)
    (query : TrackedQuery) (hnd : (keys query.attrs).Nodup) :
    (s.insertQuery eid query).insertQuery eid query = s.insertQuery eid query := by
  cases h : s.queries.lookup eid with
  | none =>
    apply TrackedSession.insertQuery_fixed _ eid query query
    · rw [TrackedSession.insertQuery_absent s eid query h]
      exact lookup_append_new eid query s.queries h
    · exact TrackedQuery.merge_self query hnd
    · rw [TrackedSession.insertQuery_last_seen]
      exact Nat.le_max_right _ _
  | some q0 =>
    apply TrackedSession.insertQuery_fixed _ eid query (q0.merge query)
    · rw [TrackedSession.insertQuery_present s eid query q0 h]
      show (setEntry eid (q0.merge query) s.queries).lookup eid = some (q0.merge query)
      rw [lookup_setEntry, h]
      rfl
    · exact TrackedQuery.merge_merge q0 query hnd
    · rw [TrackedSession.insertQuery_last_seen]
      exact Nat.le_max_right _ _

theorem insertQuery_found (svc : LogJoinService) (customer uid eid : String)
    (query : TrackedQuery) (session : TrackedSession)
    (h : svc.sessions_.lookup uid = some session) :
    insertQuery svc customer uid eid query =
      { svc with sessions_ := setEntry uid (session.insertQuery eid query) svc.sessions_ } := by
  unfold insertQuery findOrCreateSession
  rw [h]

/-- C12. Idempotent merge, with `TrackedQuery::merge` modelled from the spec: for every
state of the service and every query event whose attributes hold one value per name,
`insertQuery` applied twice with the same arguments leaves the same state as applied once;
so does its body on every session. -/
theorem insertQuery_idempotent (svc : LogJoinService) (customer uid eid : String)
    (query : TrackedQuery) (hnd : (keys query.attrs).Nodup) :
    insertQuery (insertQuery svc customer uid eid query) customer uid eid query =
        insertQuery svc customer uid eid query ∧
      ∀ s : TrackedSession,
        (s.insertQuery eid query).insertQuery eid query = s.insertQuery eid query := by
  refine ⟨?_, fun s => TrackedSession.insertQuery_idem s eid query hnd⟩
  have hl := insertQuery_lookup svc customer uid eid query
  rw [insertQuery_found (insertQuery svc customer uid eid query) customer uid eid query _ hl,
    TrackedSession.insertQuery_idem _ eid query hnd, setEntry_lookup_self uid _ _ hl]

/-- C12 on a fresh service: a second insert of the same click event changes nothing; on
`oneQuerySession` the click is folded into the query `q1`. -/
theorem insertQuery_idempotent_witness :
    (keys ({ time := 10000000, flushed := false, attrs := [("clicked", "1")] } :
        TrackedQuery).attrs).Nodup ∧
      insertQuery (insertQuery LogJoinService.new "dawanda" "u1" "q1"
          { time := 10000000, flushed := false, attrs := [("clicked", "1")] })
          "dawanda" "u1" "q1" { time := 10000000, flushed := false, attrs := [("clicked", "1")] } =
        insertQuery LogJoinService.new "dawanda" "u1" "q1"
          { time := 10000000, flushed := false, attrs := [("clicked", "1")] } ∧
      (oneQuerySession.insertQuery "q1"
          { time := 10000000, flushed := false, attrs := [("clicked", "1")] }).queries =
        [("q1", { time := 0, flushed := false,
                  attrs := [("qstr", "shoes"), ("clicked", "1")] })] :=
  ⟨by decide,
    (insertQuery_idempotent LogJoinService.new "dawanda" "u1" "q1"
      { time := 10000000, flushed := false, attrs := [("clicked", "1")] } (by decide)).1,
    by decide⟩

/-! ## The state after the flush pass -/

theorem streamTime_sessions (svc : LogJoinService) (t : Nat) :
    (streamTime svc t).2.sessions_ = svc.sessions_ ∧ (streamTime svc t).2.out_ = svc.out_ := by
  unfold streamTime
  split_ifs <;> exact ⟨rfl, rfl⟩

theorem lookup_map_key {β γ : Type} (f : String → β → γ) (m : List (String × β)) (k : String) :
    (m.map (fun p => (p.1, f p.1 p.2))).lookup k = (m.lookup k).map (f k) := by
  induction m with
  | nil => rfl
  | cons a m ih =>
    obtain ⟨k1, v⟩ := a
    simp only [List.map_cons, List.lookup_cons]
    cases h : (k == k1)
    · simpa using ih
    · have : k = k1 := by simpa using h
      subst this
      simp

theorem sweep_lookup (d : Decls) (svc : LogJoinService) (t : Nat) (uid : String) :
    (sweep d svc t).sessions_.lookup uid =
      (svc.sessions_.lookup uid).map (fun s => (maybeFlushSession d uid s t).session) :=
  lookup_map_key (fun u s => (maybeFlushSession d u s t).session) svc.sessions_ uid

theorem sweep_keys (d : Decls) (svc : LogJoinService) (t : Nat) :
    keys (sweep d svc t).sessions_ = keys svc.sessions_ := by
  simp [sweep, keys, List.map_map, Function.comp_def]

theorem sweep_mem (d : Decls) (svc : LogJoinService) (t : Nat) (p : String × TrackedSession)
    (h : p ∈ (sweep d svc t).sessions_) :
    ∃ s, (p.1, s) ∈ svc.sessions_ ∧ p.2 = (maybeFlushSession d p.1 s t).session := by
  obtain ⟨p0, hp0, rfl⟩ := List.mem_map.mp h
  exact ⟨p0.2, hp0, rfl⟩

theorem maybeFlushSession_customer (d : Decls) (uid : String) (s : TrackedSession) (t : Nat)
    (hupd : UpdateFrame d.update) :
    (maybeFlushSession d uid s t).session.customer = s.customer ∧
      keys (maybeFlushSession d uid s t).session.item_visits = keys s.item_visits := by
  by_cases h : t % u64 < s.last_seen_unix_micros
  · rw [maybeFlushSession_early d uid s t h]; exact ⟨rfl, rfl⟩
  · exact ⟨(maybeFlushSession_frame d uid s t hupd h).1,
      (maybeFlushSession_frame d uid s t hupd h).2.2.1⟩

theorem maybeFlushSession_flushed_stays (d : Decls) (uid : String) (s : TrackedSession)
    (t : Nat) (hupd : UpdateFrame d.update) (eid : String)
    (h : flushedOf s eid = some true) :
    flushedOf (maybeFlushSession d uid s t).session eid = some true := by
  by_cases hg : t % u64 < s.last_seen_unix_micros
  · rw [maybeFlushSession_early d uid s t hg]; exact h
  · rw [maybeFlushSession_flushedOf d uid s t hupd hg eid]
    rw [flushedOf] at h
    cases hl : s.queries.lookup eid with
    | none => rw [hl] at h; simp at h
    | some q =>
      rw [hl] at h
      simp only [Option.map_some', Option.some.injEq] at h
      simp [h]

theorem maybeFlushSession_out_queries (d : Decls) (uid : String) (s : TrackedSession)
    (t : Nat) (hd : (maybeFlushSession d uid s t).do_flush = false) :
    ∀ e ∈ (maybeFlushSession d uid s t).out, e.isQuery = true := by
  intro e he
  by_cases hg : t % u64 < s.last_seen_unix_micros
  · rw [maybeFlushSession_early d uid s t hg] at he; simp at he
  · rw [maybeFlushSession_out d uid s t hg, hd] at he
    simp only [Bool.false_eq_true, if_false, List.append_nil] at he
    obtain ⟨fq, -, rfl⟩ := List.mem_map.mp he
    rfl

theorem sweep_out (d : Decls) (svc : LogJoinService) (t : Nat) (h : noSessionDue d svc t) :
    ∃ ems : List Emission, (sweep d svc t).out_ = svc.out_ ++ ems ∧
      ∀ e ∈ ems, e.isQuery = true := by
  refine ⟨_, rfl, ?_⟩
  intro e he
  obtain ⟨l, hl, hel⟩ := List.mem_flatten.mp he
  obtain ⟨p, hp, rfl⟩ := List.mem_map.mp hl
  exact maybeFlushSession_out_queries d p.1 p.2 t (h p hp) e hel

theorem decodeAndInsert_e_missing (d : LineDecls) (svc : LogJoinService) (customer : String)
    (time : Nat) (params : ParamList) (he : getParam params "e" = none) :
    ∃ msg : String,
      decodeAndInsert d svc customer time params =
        LineResult.raised ErrorKind.kParseError msg svc := by
  unfold decodeAndInsert
  rw [he]
  cases getParam params "c" with
  | none => exact ⟨_, rfl⟩
  | some c =>
    dsimp only
    cases find c '~' with
    | none => exact ⟨_, rfl⟩
    | some c_s =>
      dsimp only
      split_ifs
      · exact ⟨_, rfl⟩
      · exact ⟨_, rfl⟩

/-! ## A line without the event type -/

/-- C16 as stated fails: the session `u1` holds the unflushed query `q1` of time 0, and
the line `c=u1~q2`, which lacks the parameter `e`, arrives at 901 s. `insertLogline`
raises the `kParseError`, and by then its flush pass has marked `q1` flushed and made a
`recordJoinedQuery` call: the sessions and the output are not as they were before. -/
theorem insertLogline_malformed_line_flushes :
    getParam (exampleLineDecls.parseQueryString "c=u1~q2") "e" = none ∧
      insertLogline exampleLineDecls freshQueryService "dawanda" 901000000 "c=u1~q2" =
        LineResult.raised ErrorKind.kParseError "e param is missing"
          { sessions_ :=
              [("u1",
                { customer := "dawanda"
                  queries := [("q1", { time := 0, flushed := true, attrs := [("qstr", "shoes")] })]
                  item_visits := []
                  last_seen_unix_micros := 0 })]
            stream_clock_ := 901000000
            out_ := [Emission.recordJoinedQuery "dawanda" "u1" "q1"
              { time := 0, flushed := true, attrs := [("qstr", "shoes")] }] } ∧
      ¬ (∃ (msg : String) (svc1 : LogJoinService),
          insertLogline exampleLineDecls freshQueryService "dawanda" 901000000 "c=u1~q2" =
            LineResult.raised ErrorKind.kParseError msg svc1 ∧
          svc1.sessions_ = freshQueryService.sessions_ ∧ svc1.out_ = freshQueryService.out_) := by
  have h : insertLogline exampleLineDecls freshQueryService "dawanda" 901000000 "c=u1~q2" =
      LineResult.raised ErrorKind.kParseError "e param is missing"
        { sessions_ :=
            [("u1",
              { customer := "dawanda"
                queries := [("q1", { time := 0, flushed := true, attrs := [("qstr", "shoes")] })]
                item_visits := []
                last_seen_unix_micros := 0 })]
          stream_clock_ := 901000000
          out_ := [Emission.recordJoinedQuery "dawanda" "u1" "q1"
            { time := 0, flushed := true, attrs := [("qstr", "shoes")] }] } := by
    decide
  refine ⟨by decide, h, ?_⟩
  rintro ⟨msg, svc1, heq, -, hout⟩
  rw [h] at heq
  simp only [LineResult.raised.injEq] at heq
  rw [← heq.2.2] at hout
  revert hout
  decide

/-- C16, amended. For a line that lacks the parameter `e`, in a call whose flush pass
finds no session due: `insertLogline` raises a `kParseError`, and the state it leaves is
the state after the stream clock step and the flush pass at the new watermark, which does
not depend on the line: nothing of the line is merged. That state has the same uids, and
every session keeps its `last_seen` and the event ids of its queries and item visits; a
query that was flushed stays flushed; the calls added to the output are
`recordJoinedQuery` calls of the pass. `update` is assumed to keep these (`UpdateFrame`). -/
theorem insertLogline_malformed_line (d : LineDecls) (svc : LogJoinService)
    (customer : String) (time : Nat) (line : String) (hupd : UpdateFrame d.update)
    (hnd : noSessionDue d.toDecls (streamTime svc time).2 (streamTime svc time).1)
    (he : getParam (d.parseQueryString line) "e" = none) :
    (∃ msg : String,
        insertLogline d svc customer time line =
          LineResult.raised ErrorKind.kParseError msg
            (sweep d.toDecls (streamTime svc time).2 (streamTime svc time).1)) ∧
      keys (sweep d.toDecls (streamTime svc time).2 (streamTime svc time).1).sessions_ =
        keys svc.sessions_ ∧
      (∀ (uid : String) (s : TrackedSession), svc.sessions_.lookup uid = some s →
        ∃ s1 : TrackedSession,
          (sweep d.toDecls (streamTime svc time).2 (streamTime svc time).1).sessions_.lookup uid
            = some s1 ∧
          s1.last_seen_unix_micros = s.last_seen_unix_micros ∧
          s1.customer = s.customer ∧
          keys s1.queries = keys s.queries ∧
          keys s1.item_visits = keys s.item_visits ∧
          ∀ eid : String, flushedOf s eid = some true → flushedOf s1 eid = some true) ∧
      (∃ ems : List Emission,
        (sweep d.toDecls (streamTime svc time).2 (streamTime svc time).1).out_ =
          svc.out_ ++ ems ∧
        ∀ e ∈ ems, e.isQuery = true) := by
  refine ⟨?_, ?_, ?_, ?_⟩
  · rw [insertLogline_eq d svc customer time line hnd]
    exact decodeAndInsert_e_missing d _ customer time _ he
  · rw [sweep_keys, (streamTime_sessions svc time).1]
  · intro uid s hs
    refine ⟨(maybeFlushSession d.toDecls uid s (streamTime svc time).1).session, ?_,
      maybeFlushSession_last_seen d.toDecls uid s _ hupd,
      (maybeFlushSession_customer d.toDecls uid s _ hupd).1,
      maybeFlushSession_keys d.toDecls uid s _ hupd,
      (maybeFlushSession_customer d.toDecls uid s _ hupd).2,
      fun eid h => maybeFlushSession_flushed_stays d.toDecls uid s _ hupd eid h⟩
    rw [sweep_lookup, (streamTime_sessions svc time).1, hs]
    rfl
  · have h := sweep_out d.toDecls (streamTime svc time).2 (streamTime svc time).1 hnd
    rw [(streamTime_sessions svc time).2] at h
    exact h

/-- C16, amended, at the input of the counterexample: the state left is the one after the
flush pass at 901 s. -/
theorem insertLogline_malformed_line_witness :
    (UpdateFrame exampleLineDecls.update ∧
      noSessionDue exampleLineDecls.toDecls (streamTime freshQueryService 901000000).2
        (streamTime freshQueryService 901000000).1 ∧
      getParam (exampleLineDecls.parseQueryString "c=u1~q2") "e" = none) ∧
      ∃ msg : String,
        insertLogline exampleLineDecls freshQueryService "dawanda" 901000000 "c=u1~q2" =
          LineResult.raised ErrorKind.kParseError msg
            (sweep exampleLineDecls.toDecls (streamTime freshQueryService 901000000).2
              (streamTime freshQueryService 901000000).1) :=
  ⟨⟨updateFrame_id, by unfold noSessionDue; decide, by decide⟩,
    (insertLogline_malformed_line exampleLineDecls freshQueryService "dawanda" 901000000
      "c=u1~q2" updateFrame_id (by unfold noSessionDue; decide) (by decide)).1⟩

/-! ## Order of flush and merge -/

theorem lastSeenOf_sweep (d : Decls) (svc : LogJoinService) (t : Nat) (uid : String)
    (hupd : UpdateFrame d.update) : lastSeenOf (sweep d svc t) uid = lastSeenOf svc uid := by
  unfold lastSeenOf
  rw [sweep_lookup]
  cases svc.sessions_.lookup uid with
  | none => rfl
  | some s =>
    simp only [Option.map_some', Option.getD_some]
    exact maybeFlushSession_last_seen d uid s t hupd

theorem lastSeenOf_streamTime (svc : LogJoinService) (t : Nat) (uid : String) :
    lastSeenOf (streamTime svc t).2 uid = lastSeenOf svc uid := by
  unfold lastSeenOf
  rw [(streamTime_sessions svc t).1]

theorem lastSeenOf_insertQuery (svc : LogJoinService) (customer uid eid : String)
    (query : TrackedQuery) :
    lastSeenOf (insertQuery svc customer uid eid query) uid =
      max (lastSeenOf svc uid) query.time := by
  unfold lastSeenOf
  rw [insertQuery_lookup]
  simp only [Option.map_some', Option.getD_some, TrackedSession.insertQuery_last_seen]
  cases svc.sessions_.lookup uid <;> rfl

theorem lastSeenOf_insertItemVisit (svc : LogJoinService) (customer uid eid : String)
    (visit : TrackedItemVisit) :
    lastSeenOf (insertItemVisit svc customer uid eid visit) uid =
      max (lastSeenOf svc uid) visit.time := by
  unfold lastSeenOf
  rw [insertItemVisit_lookup]
  simp only [Option.map_some', Option.getD_some, TrackedSession.insertItemVisit_last_seen]
  cases svc.sessions_.lookup uid <;> rfl

theorem insertQuery_out (svc : LogJoinService) (customer uid eid : String)
    (query : TrackedQuery) : (insertQuery svc customer uid eid query).out_ = svc.out_ := by
  unfold insertQuery findOrCreateSession
  cases svc.sessions_.lookup uid <;> rfl

theorem insertItemVisit_out (svc : LogJoinService) (customer uid eid : String)
    (visit : TrackedItemVisit) :
    (insertItemVisit svc customer uid eid visit).out_ =
      svc.out_ ++ [Emission.recordJoinedItemVisit customer uid eid visit] := by
  unfold insertItemVisit findOrCreateSession
  cases svc.sessions_.lookup uid <;> rfl

/-- C18. Item-visit emission: for every state of the service and every item-visit event,
`insertItemVisit` appends exactly one call to the output, the `recordJoinedItemVisit` call
with the tenant, uid, event id and visit of the event; the numbers of `recordJoinedQuery`
and of `recordJoinedSession` calls in the output do not change. No timeout enters: the
operation takes neither the stream time nor the timeout constants. -/
theorem insertItemVisit_emits_once (svc : LogJoinService) (customer uid eid : String)
    (visit : TrackedItemVisit) :
    (insertItemVisit svc customer uid eid visit).out_ =
        svc.out_ ++ [Emission.recordJoinedItemVisit customer uid eid visit] ∧
      (insertItemVisit svc customer uid eid visit).out_.countP Emission.isQuery =
        svc.out_.countP Emission.isQuery ∧
      (insertItemVisit svc customer uid eid visit).out_.countP Emission.isSession =
        svc.out_.countP Emission.isSession := by
  rw [insertItemVisit_out]
  refine ⟨rfl, ?_, ?_⟩
  · rw [List.countP_append]; rfl
  · rw [List.countP_append]; rfl

/-- C17 as stated fails, at two inputs. (1) The session `u1` holds the unflushed query
`q1` of time 0 and the click `c=u1~q1&e=q&clicked=1` arrives at 901 s: `insertLogline`
flushes `q1` before the merge, so the emitted and the stored query lack `clicked`, unlike
with the merge first. (2) The session `u1` was last seen at time 0 and an event for `u1`
arrives at 1801 s, the new watermark: the flush pass of `insertLogline` finds the session
due, emits it and erases it before the event is merged, whereas with the merge first the
event is merged into the session and nothing is emitted. -/
theorem insertLogline_flushes_before_merge :
    insertLogline exampleLineDecls freshQueryService "dawanda" 901000000
        "c=u1~q1&e=q&clicked=1" =
      LineResult.returned
        { sessions_ :=
            [("u1",
              { customer := "dawanda"
                queries := [("q1", { time := 0, flushed := true, attrs := [("qstr", "shoes")] })]
                item_visits := []
                last_seen_unix_micros := 901000000 })]
          stream_clock_ := 901000000
          out_ := [Emission.recordJoinedQuery "dawanda" "u1" "q1"
            { time := 0, flushed := true, attrs := [("qstr", "shoes")] }] } ∧
      insertLogline exampleLineDecls freshQueryService "dawanda" 901000000
          "c=u1~q1&e=q&clicked=1" ≠
        insertLoglineMergeFirst exampleLineDecls freshQueryService "dawanda" 901000000
          "c=u1~q1&e=q&clicked=1" ∧
      insertLogline exampleLineDecls idleService "dawanda" 1801000000 "c=u1~q1&e=q" =
        LineResult.undefinedBehaviour
          { sessions_ := []
            stream_clock_ := 1801000000
            out_ := [Emission.recordJoinedSession "dawanda" "u1" idleSession] } ∧
      insertLoglineMergeFirst exampleLineDecls idleService "dawanda" 1801000000 "c=u1~q1&e=q" =
        LineResult.returned
          { sessions_ :=
              [("u1",
                { customer := "dawanda"
                  queries := [("q1",
                    { time := 1801000000, flushed := false,
                      attrs := [("c", "u1~q1"), ("e", "q")] })]
                  item_visits := []
                  last_seen_unix_micros := 1801000000 })]
            stream_clock_ := 1801000000
            out_ := [] } := by
  refine ⟨by decide, by decide, by decide, by decide⟩

/-- C17, amended. For a valid query or item-visit line, in a call whose flush pass finds
no session due: `insertLogline` first runs the flush pass, once and at the advanced
watermark, on the registry as it is before the merge, and only then merges the event into
its session; no flush evaluation follows the merge (a query line adds no call to the
output of the pass, a visit line only its `recordJoinedItemVisit`). An event for an
existing session is merged into that session as its flush evaluation left it, and
afterwards the `last_seen` of the session is the maximum of its old value and the time of
the event. `update` and `fromParams` are assumed to keep times (`UpdateFrame`,
`FromParamsFrame`). -/
theorem insertLogline_flush_then_merge (d : LineDecls) (svc : LogJoinService)
    (customer : String) (time : Nat) (line : String) (c : String) (u e : List Char)
    (evtype : String) (hupd : UpdateFrame d.update) (hfp : FromParamsFrame d)
    (hnd : noSessionDue d.toDecls (streamTime svc time).2 (streamTime svc time).1)
    (h : getParam (d.parseQueryString line) "c" = some c) (hc : c.toList = u ++ '~' :: e)
    (hu : '~' ∉ u) (hu0 : u ≠ []) (he0 : e ≠ [])
    (he : getParam (d.parseQueryString line) "e" = some evtype) :
    (evtype.toList = ['q'] →
        ∃ svc2 : LogJoinService,
          insertLogline d svc customer time line = LineResult.returned svc2 ∧
          svc2 = insertQuery (sweep d.toDecls (streamTime svc time).2 (streamTime svc time).1)
            customer (String.mk u) (String.mk e)
            (d.queryFromParams { time := time, flushed := false, attrs := [] }
              (d.parseQueryString line)) ∧
          svc2.out_ = (sweep d.toDecls (streamTime svc time).2 (streamTime svc time).1).out_ ∧
          lastSeenOf svc2 (String.mk u) = max (lastSeenOf svc (String.mk u)) time ∧
          ∀ s : TrackedSession, svc.sessions_.lookup (String.mk u) = some s →
            svc2.sessions_.lookup (String.mk u) =
              some ((maybeFlushSession d.toDecls (String.mk u) s
                  (streamTime svc time).1).session.insertQuery (String.mk e)
                (d.queryFromParams { time := time, flushed := false, attrs := [] }
                  (d.parseQueryString line)))) ∧
      (evtype.toList = ['v'] →
        ∃ svc2 : LogJoinService,
          insertLogline d svc customer time line = LineResult.returned svc2 ∧
          svc2 = insertItemVisit
            (sweep d.toDecls (streamTime svc time).2 (streamTime svc time).1)
            customer (String.mk u) (String.mk e)
            (d.visitFromParams { time := time, attrs := [] } (d.parseQueryString line)) ∧
          svc2.out_ =
            (sweep d.toDecls (streamTime svc time).2 (streamTime svc time).1).out_ ++
              [Emission.recordJoinedItemVisit customer (String.mk u) (String.mk e)
                (d.visitFromParams { time := time, attrs := [] } (d.parseQueryString line))] ∧
          lastSeenOf svc2 (String.mk u) = max (lastSeenOf svc (String.mk u)) time ∧
          ∀ s : TrackedSession, svc.sessions_.lookup (String.mk u) = some s →
            svc2.sessions_.lookup (String.mk u) =
              some ((maybeFlushSession d.toDecls (String.mk u) s
                  (streamTime svc time).1).session.insertItemVisit (String.mk e)
                (d.visitFromParams { time := time, attrs := [] } (d.parseQueryString line)))) := by
  constructor
  · intro hch
    refine ⟨_, ?_, rfl, insertQuery_out _ _ _ _ _, ?_, ?_⟩
    · rw [insertLogline_event d svc customer time line c u e evtype 'q' hnd h hc hu hu0 he0
        he hch]
      unfold processEvent
      rw [if_pos rfl]
    · rw [lastSeenOf_insertQuery, lastSeenOf_sweep _ _ _ _ hupd, lastSeenOf_streamTime,
        (hfp.1 _ _).1]
    · intro s hs
      rw [insertQuery_lookup, sweep_lookup, (streamTime_sessions svc time).1, hs]
      rfl
  · intro hch
    have hq : ('v' : Char) ≠ 'q' := by decide
    refine ⟨_, ?_, rfl, insertItemVisit_out _ _ _ _ _, ?_, ?_⟩
    · rw [insertLogline_event d svc customer time line c u e evtype 'v' hnd h hc hu hu0 he0
        he hch]
      unfold processEvent
      rw [if_neg hq, if_pos rfl]
    · rw [lastSeenOf_insertItemVisit, lastSeenOf_sweep _ _ _ _ hupd, lastSeenOf_streamTime,
        hfp.2 _ _]
    · intro s hs
      rw [insertItemVisit_lookup, sweep_lookup, (streamTime_sessions svc time).1, hs]
      rfl

theorem fromParamsFrame_example : FromParamsFrame exampleLineDecls :=
  ⟨fun _ _ => ⟨rfl, rfl⟩, fun _ _ => rfl⟩

/-- C17, amended, at the first input of the counterexample: the click for `q1` at 901 s is
merged after the flush pass. -/
theorem insertLogline_flush_then_merge_witness :
    (UpdateFrame exampleLineDecls.update ∧ FromParamsFrame exampleLineDecls ∧
      noSessionDue exampleLineDecls.toDecls (streamTime freshQueryService 901000000).2
        (streamTime freshQueryService 901000000).1 ∧
      getParam (exampleLineDecls.parseQueryString "c=u1~q1&e=q&clicked=1") "c" = some "u1~q1" ∧
      getParam (exampleLineDecls.parseQueryString "c=u1~q1&e=q&clicked=1") "e" = some "q") ∧
      ∃ svc2 : LogJoinService,
        insertLogline exampleLineDecls freshQueryService "dawanda" 901000000
          "c=u1~q1&e=q&clicked=1" = LineResult.returned svc2 ∧
        svc2 = insertQuery
          (sweep exampleLineDecls.toDecls (streamTime freshQueryService 901000000).2
            (streamTime freshQueryService 901000000).1)
          "dawanda" (String.mk ['u', '1']) (String.mk ['q', '1'])
          (exampleLineDecls.queryFromParams
            { time := 901000000, flushed := false, attrs := [] }
            (exampleLineDecls.parseQueryString "c=u1~q1&e=q&clicked=1")) ∧
        svc2.out_ =
          (sweep exampleLineDecls.toDecls (streamTime freshQueryService 901000000).2
            (streamTime freshQueryService 901000000).1).out_ ∧
        lastSeenOf svc2 (String.mk ['u', '1']) =
          max (lastSeenOf freshQueryService (String.mk ['u', '1'])) 901000000 ∧
        ∀ s : TrackedSession,
          freshQueryService.sessions_.lookup (String.mk ['u', '1']) = some s →
          svc2.sessions_.lookup (String.mk ['u', '1']) =
            some ((maybeFlushSession exampleLineDecls.toDecls (String.mk ['u', '1']) s
                (streamTime freshQueryService 901000000).1).session.insertQuery
              (String.mk ['q', '1'])
              (exampleLineDecls.queryFromParams
                { time := 901000000, flushed := false, attrs := [] }
                (exampleLineDecls.parseQueryString "c=u1~q1&e=q&clicked=1"))) :=
  ⟨⟨updateFrame_id, fromParamsFrame_example, by unfold noSessionDue; decide, by decide,
      by decide⟩,
    (insertLogline_flush_then_merge exampleLineDecls freshQueryService "dawanda" 901000000
      "c=u1~q1&e=q&clicked=1" "u1~q1" ['u', '1'] ['q', '1'] "q" updateFrame_id
      fromParamsFrame_example (by unfold noSessionDue; decide) (by decide) (by decide)
      (by decide) (by decide) (by decide) (by decide)).1 (by decide)⟩

/-! ## Sessions never run ahead of the stream clock -/

theorem flush_completed_eq (d : Decls) (svc svc1 : LogJoinService) (t : Nat)
    (h : flush d svc t = Run.completed svc1) : noSessionDue d svc t ∧ svc1 = sweep d svc t := by
  by_cases hnd : noSessionDue d svc t
  · rw [flush_completed d svc t hnd] at h
    simp only [Run.completed.injEq] at h
    exact ⟨hnd, h.symm⟩
  · exfalso
    unfold noSessionDue at hnd
    push_neg at hnd
    obtain ⟨p, hp, hdue⟩ := hnd
    obtain ⟨st, hst⟩ := flush_due_undefined d svc t ⟨p, hp, by simpa using hdue⟩
    rw [hst] at h
    simp at h

theorem mem_of_lookup {β : Type} (k : String) (v : β) (m : List (String × β))
    (h : m.lookup k = some v) : (k, v) ∈ m := by
  induction m with
  | nil => simp at h
  | cons a m ih =>
    obtain ⟨k1, v1⟩ := a
    rw [List.lookup_cons] at h
    cases hb : (k == k1)
    · rw [hb] at h
      exact List.mem_cons_of_mem _ (ih h)
    · rw [hb] at h
      have hk : k = k1 := by simpa using hb
      simp only [Option.some.injEq] at h
      rw [hk, h]
      exact List.mem_cons_self _ _

theorem mem_setEntry {β : Type} (k : String) (v : β) (m : List (String × β))
    (p : String × β) (h : p ∈ setEntry k v m) : p ∈ m ∨ p = (k, v) := by
  induction m with
  | nil => simp [setEntry] at h
  | cons a m ih =>
    obtain ⟨k1, v1⟩ := a
    by_cases hk : k1 = k
    · simp only [setEntry, hk, if_true, List.mem_cons] at h
      rcases h with h | h
      · right; exact h
      · left; exact List.mem_cons_of_mem _ h
    · simp only [setEntry, hk, if_false, List.mem_cons] at h
      rcases h with h | h
      · left; rw [h]; exact List.mem_cons_self _ _
      · rcases ih h with h2 | h2
        · left; exact List.mem_cons_of_mem _ h2
        · right; exact h2

theorem lastSeenOf_le (svc : LogJoinService) (uid : String) (bound : Nat)
    (h : ∀ p ∈ svc.sessions_, p.2.last_seen_unix_micros ≤ bound) :
    lastSeenOf svc uid ≤ bound := by
  unfold lastSeenOf
  cases hl : svc.sessions_.lookup uid with
  | none => exact Nat.zero_le _
  | some s => exact h (uid, s) (mem_of_lookup uid s svc.sessions_ hl)

theorem insertQuery_bound (svc : LogJoinService) (customer uid eid : String)
    (query : TrackedQuery) (bound : Nat)
    (h : ∀ p ∈ svc.sessions_, p.2.last_seen_unix_micros ≤ bound) (hq : query.time ≤ bound) :
    ∀ p ∈ (insertQuery svc customer uid eid query).sessions_,
      p.2.last_seen_unix_micros ≤ bound := by
  intro p hp
  have hls := lastSeenOf_le svc uid bound h
  unfold lastSeenOf at hls
  unfold insertQuery findOrCreateSession at hp
  cases hl : svc.sessions_.lookup uid with
  | none =>
    rw [hl] at hp
    rcases mem_setEntry _ _ _ p hp with h1 | h1
    · rcases List.mem_append.mp h1 with h2 | h2
      · exact h p h2
      · rw [List.mem_singleton.mp h2]; exact Nat.zero_le _
    · rw [h1]
      show (TrackedSession.insertQuery _ eid query).last_seen_unix_micros ≤ bound
      rw [TrackedSession.insertQuery_last_seen]
      exact Nat.max_le.mpr ⟨Nat.zero_le _, hq⟩
  | some s =>
    rw [hl] at hp hls
    rcases mem_setEntry _ _ _ p hp with h1 | h1
    · exact h p h1
    · rw [h1]
      show (TrackedSession.insertQuery _ eid query).last_seen_unix_micros ≤ bound
      rw [TrackedSession.insertQuery_last_seen]
      exact Nat.max_le.mpr ⟨hls, hq⟩

theorem insertItemVisit_bound (svc : LogJoinService) (customer uid eid : String)
    (visit : TrackedItemVisit) (bound : Nat)
    (h : ∀ p ∈ svc.sessions_, p.2.last_seen_unix_micros ≤ bound) (hq : visit.time ≤ bound) :
    ∀ p ∈ (insertItemVisit svc customer uid eid visit).sessions_,
      p.2.last_seen_unix_micros ≤ bound := by
  intro p hp
  have hls := lastSeenOf_le svc uid bound h
  unfold lastSeenOf at hls
  unfold insertItemVisit findOrCreateSession at hp
  cases hl : svc.sessions_.lookup uid with
  | none =>
    rw [hl] at hp
    rcases mem_setEntry _ _ _ p hp with h1 | h1
    · rcases List.mem_append.mp h1 with h2 | h2
      · exact h p h2
      · rw [List.mem_singleton.mp h2]; exact Nat.zero_le _
    · rw [h1]
      show (TrackedSession.insertItemVisit _ eid visit).last_seen_unix_micros ≤ bound
      rw [TrackedSession.insertItemVisit_last_seen]
      exact Nat.max_le.mpr ⟨Nat.zero_le _, hq⟩
  | some s =>
    rw [hl] at hp hls
    rcases mem_setEntry _ _ _ p hp with h1 | h1
    · exact h p h1
    · rw [h1]
      show (TrackedSession.insertItemVisit _ eid visit).last_seen_unix_micros ≤ bound
      rw [TrackedSession.insertItemVisit_last_seen]
      exact Nat.max_le.mpr ⟨hls, hq⟩

theorem insertQuery_clock (svc : LogJoinService) (customer uid eid : String)
    (query : TrackedQuery) :
    (insertQuery svc customer uid eid query).stream_clock_ = svc.stream_clock_ := by
  unfold insertQuery findOrCreateSession
  cases svc.sessions_.lookup uid <;> rfl

theorem insertItemVisit_clock (svc : LogJoinService) (customer uid eid : String)
    (visit : TrackedItemVisit) :
    (insertItemVisit svc customer uid eid visit).stream_clock_ = svc.stream_clock_ := by
  unfold insertItemVisit findOrCreateSession
  cases svc.sessions_.lookup uid <;> rfl

theorem processEvent_bound (d : LineDecls) (svc0 svc1 : LogJoinService) (customer : String)
    (time : Nat) (params : ParamList) (uid eid : String) (ch : Char)
    (hfp : FromParamsFrame d)
    (hb : ∀ p ∈ svc0.sessions_, p.2.last_seen_unix_micros ≤ svc0.stream_clock_)
    (ht : time ≤ svc0.stream_clock_)
    (h : (processEvent d svc0 customer time params uid eid ch).state? = some svc1) :
    ∀ p ∈ svc1.sessions_, p.2.last_seen_unix_micros ≤ svc1.stream_clock_ := by
  unfold processEvent at h
  split_ifs at h
  · simp only [LineResult.state?, Option.some.injEq] at h
    rw [← h, insertQuery_clock]
    apply insertQuery_bound _ _ _ _ _ _ hb
    rw [(hfp.1 _ _).1]
    exact ht
  · simp only [LineResult.state?, Option.some.injEq] at h
    rw [← h, insertItemVisit_clock]
    apply insertItemVisit_bound _ _ _ _ _ _ hb
    rw [hfp.2 _ _]
    exact ht
  · simp only [LineResult.state?, Option.some.injEq] at h
    rw [← h]
    exact hb

theorem decodeAndInsert_bound (d : LineDecls) (svc0 svc1 : LogJoinService)
    (customer : String) (time : Nat) (params : ParamList) (hfp : FromParamsFrame d)
    (hb : ∀ p ∈ svc0.sessions_, p.2.last_seen_unix_micros ≤ svc0.stream_clock_)
    (ht : time ≤ svc0.stream_clock_)
    (h : (decodeAndInsert d svc0 customer time params).state? = some svc1) :
    ∀ p ∈ svc1.sessions_, p.2.last_seen_unix_micros ≤ svc1.stream_clock_ := by
  have hsame : ∀ (kind : ErrorKind) (msg : String),
      (LineResult.raised kind msg svc0).state? = some svc1 →
      ∀ p ∈ svc1.sessions_, p.2.last_seen_unix_micros ≤ svc1.stream_clock_ := by
    intro kind msg hs
    simp only [LineResult.state?, Option.some.injEq] at hs
    rw [← hs]
    exact hb
  unfold decodeAndInsert at h
  cases hc : getParam params "c" with
  | none => rw [hc] at h; exact hsame _ _ h
  | some c =>
    rw [hc] at h
    dsimp only at h
    cases hf : find c '~' with
    | none => rw [hf] at h; exact hsame _ _ h
    | some c_s =>
      rw [hf] at h
      dsimp only at h
      split_ifs at h
      · exact hsame _ _ h
      · cases he : getParam params "e" with
        | none => rw [he] at h; exact hsame _ _ h
        | some evtype =>
          rw [he] at h
          dsimp only at h
          split at h
          · exact processEvent_bound d svc0 svc1 customer time params _ _ _ hfp hb ht h
          · exact hsame _ _ h

theorem insertLogline_bound (d : LineDecls) (svc svc1 : LogJoinService) (customer : String)
    (time : Nat) (line : String) (hupd : UpdateFrame d.update) (hfp : FromParamsFrame d)
    (hb : ∀ p ∈ svc.sessions_, p.2.last_seen_unix_micros ≤ svc.stream_clock_)
    (h : (insertLogline d svc customer time line).state? = some svc1) :
    ∀ p ∈ svc1.sessions_, p.2.last_seen_unix_micros ≤ svc1.stream_clock_ := by
  unfold insertLogline at h
  dsimp only at h
  cases hfl : flush d.toDecls (streamTime svc time).2 (streamTime svc time).1 with
  | undefinedBehaviour st => rw [hfl] at h; simp [LineResult.state?] at h
  | completed st =>
    rw [hfl] at h
    dsimp only at h
    obtain ⟨-, hst⟩ := flush_completed_eq _ _ _ _ hfl
    have hclock : st.stream_clock_ = max svc.stream_clock_ time := by
      rw [hst]
      show (streamTime svc time).2.stream_clock_ = _
      exact streamTime_clock svc time
    apply decodeAndInsert_bound d st svc1 customer time _ hfp _ _ h
    · intro p hp
      rw [hst] at hp
      obtain ⟨s, hs, hp2⟩ := sweep_mem _ _ _ p hp
      rw [(streamTime_sessions svc time).1] at hs
      rw [hp2, maybeFlushSession_last_seen _ _ _ _ hupd, hclock]
      exact Nat.le_trans (hb (p.1, s) hs) (Nat.le_max_left _ _)
    · rw [hclock]
      exact Nat.le_max_right _ _

theorem insertLoglines_bound (d : LineDecls) (hupd : UpdateFrame d.update)
    (hfp : FromParamsFrame d) (lines : List LogLine) :
    ∀ svc svc1 : LogJoinService,
      (∀ p ∈ svc.sessions_, p.2.last_seen_unix_micros ≤ svc.stream_clock_) →
      insertLoglines d svc lines = some svc1 →
      ∀ p ∈ svc1.sessions_, p.2.last_seen_unix_micros ≤ svc1.stream_clock_ := by
  induction lines with
  | nil =>
    intro svc svc1 hb h
    simp only [insertLoglines, Option.some.injEq] at h
    rw [← h]
    exact hb
  | cons l ls ih =>
    intro svc svc1 hb h
    simp only [insertLoglines] at h
    cases hst : (insertLogline d svc l.customer l.time l.text).state? with
    | none => rw [hst] at h; simp at h
    | some svc2 =>
      rw [hst] at h
      exact ih svc2 svc1
        (insertLogline_bound d svc svc2 l.customer l.time l.text hupd hfp hb hst) h

/-- C19. Out-of-order tolerance: in every state reached from a fresh service by a run of
`insertLogline` calls with arbitrary timestamps (calls that raise an error included), the
`last_seen` of every session is at most the stream clock. Hence for the next insertion,
whatever its timestamp, the stream time that `streamTime` returns and `insertLogline`
hands to the flush pass is at least the `last_seen` of every session. `update` and
`fromParams` are assumed to keep times (`UpdateFrame`, `FromParamsFrame`). -/
theorem last_seen_le_stream_clock (d : LineDecls) (lines : List LogLine)
    (svc : LogJoinService) (hupd : UpdateFrame d.update) (hfp : FromParamsFrame d)
    (hreach : insertLoglines d LogJoinService.new lines = some svc) :
    (∀ p ∈ svc.sessions_, p.2.last_seen_unix_micros ≤ svc.stream_clock_) ∧
      (∀ (time : Nat), ∀ p ∈ (streamTime svc time).2.sessions_,
        p.2.last_seen_unix_micros ≤ (streamTime svc time).1 ∧
        ¬ (streamTime svc time).1 < p.2.last_seen_unix_micros) := by
  have hinv := insertLoglines_bound d hupd hfp lines LogJoinService.new svc
    (fun p hp => by cases hp) hreach
  refine ⟨hinv, ?_⟩
  intro time p hp
  rw [(streamTime_sessions svc time).1] at hp
  have h1 := hinv p hp
  have h2 : (streamTime svc time).1 = max svc.stream_clock_ time := streamTime_clock svc time
  rw [h2]
  have h3 : svc.stream_clock_ ≤ max svc.stream_clock_ time := Nat.le_max_left _ _
  omega

/-- C19 at `outOfOrderLines`: the second line is older than the watermark; afterwards both
sessions are last seen no later than the stream clock of 10 s. -/
theorem last_seen_le_stream_clock_witness :
    (UpdateFrame exampleLineDecls.update ∧ FromParamsFrame exampleLineDecls ∧
      insertLoglines exampleLineDecls LogJoinService.new outOfOrderLines =
        some afterOutOfOrderLines) ∧
      ∀ p ∈ afterOutOfOrderLines.sessions_,
        p.2.last_seen_unix_micros ≤ afterOutOfOrderLines.stream_clock_ :=
  ⟨⟨updateFrame_id, fromParamsFrame_example, by decide⟩,
    (last_seen_le_stream_clock exampleLineDecls outOfOrderLines afterOutOfOrderLines
      updateFrame_id fromParamsFrame_example (by decide)).1⟩

/-! ## Scenario -/

/-- C20 as stated fails in its last step. After the two lines of the scenario the session
`u1` is last seen at 10 s. The flush pass at 901 s emits `q1` once and keeps `u1`. The
flush pass at 1801 s finds the session idle for 1791 s only: it completes, makes no
`recordJoinedSession` call and leaves `u1` in the registry. -/
theorem scenario_session_not_due_at_1801 :
    insertLoglines exampleLineDecls LogJoinService.new scenarioLines =
        some (scenarioService false 10000000 []) ∧
      flush exampleDecls (streamTime (scenarioService false 10000000 []) 901000000).2
          (streamTime (scenarioService false 10000000 []) 901000000).1 =
        Run.completed (scenarioService true 901000000
          [Emission.recordJoinedQuery "dawanda" "u1" "q1" (scenarioQuery true)]) ∧
      flush exampleDecls
          (streamTime (scenarioService true 901000000
            [Emission.recordJoinedQuery "dawanda" "u1" "q1" (scenarioQuery true)])
            1801000000).2
          (streamTime (scenarioService true 901000000
            [Emission.recordJoinedQuery "dawanda" "u1" "q1" (scenarioQuery true)])
            1801000000).1 =
        Run.completed (scenarioService true 1801000000
          [Emission.recordJoinedQuery "dawanda" "u1" "q1" (scenarioQuery true)]) ∧
      (scenarioService true 1801000000
        [Emission.recordJoinedQuery "dawanda" "u1" "q1" (scenarioQuery true)]).out_.countP
          Emission.isSession = 0 ∧
      (scenarioService true 1801000000
        [Emission.recordJoinedQuery "dawanda" "u1" "q1" (scenarioQuery true)]).sessions_.lookup
          "u1" = some (scenarioSession true) := by
  refine ⟨by decide, by decide, by decide, by decide, by decide⟩

/-- C20, amended. Starting from a fresh service, after the line `c=u1~q1&e=q&qstr=shoes`
at 0 s and the line `c=u1~q1&e=q&clicked=1` at 10 s, the flush pass at 901 s makes exactly
one `recordJoinedQuery` call for `q1`, no `recordJoinedSession` call, and leaves `u1` in
the registry; the flush pass at 1801 s makes no call and leaves `u1` in the registry; the
flush decision for `u1` at 1811 s, when the session has been idle for 1801 s, makes
exactly one `recordJoinedSession` call and returns true. With an idle timeout of 1800 s
the last two facts hold for every session last seen at 10 s, whatever `update` does. -/
theorem scenario_flush (d : Decls) (uid : String) (s : TrackedSession) :
    insertLoglines exampleLineDecls LogJoinService.new scenarioLines =
        some (scenarioService false 10000000 []) ∧
      flush exampleDecls (streamTime (scenarioService false 10000000 []) 901000000).2
          (streamTime (scenarioService false 10000000 []) 901000000).1 =
        Run.completed (scenarioService true 901000000
          [Emission.recordJoinedQuery "dawanda" "u1" "q1" (scenarioQuery true)]) ∧
      [Emission.recordJoinedQuery "dawanda" "u1" "q1" (scenarioQuery true)].countP
          (Emission.isQueryFor "q1") = 1 ∧
      flush exampleDecls
          (streamTime (scenarioService true 901000000
            [Emission.recordJoinedQuery "dawanda" "u1" "q1" (scenarioQuery true)])
            1801000000).2
          (streamTime (scenarioService true 901000000
            [Emission.recordJoinedQuery "dawanda" "u1" "q1" (scenarioQuery true)])
            1801000000).1 =
        Run.completed (scenarioService true 1801000000
          [Emission.recordJoinedQuery "dawanda" "u1" "q1" (scenarioQuery true)]) ∧
      maybeFlushSession exampleDecls "u1" (scenarioSession true) 1811000000 =
        { do_flush := true
          session := scenarioSession true
          out := [Emission.recordJoinedSession "dawanda" "u1" (scenarioSession true)] } ∧
      (d.kSessionIdleTimeoutSeconds = 1800 → s.last_seen_unix_micros = 10000000 →
        (maybeFlushSession d uid s 1801000000).do_flush = false ∧
        (maybeFlushSession d uid s 1801000000).out.countP Emission.isSession = 0 ∧
        (maybeFlushSession d uid s 1811000000).do_flush = true ∧
        (maybeFlushSession d uid s 1811000000).out.countP Emission.isSession = 1) := by
  refine ⟨by decide, by decide, by decide, by decide, by decide, ?_⟩
  intro h1800 hls
  have hto : d.sessionIdleTimeout = 1800000000 := by
    unfold Decls.sessionIdleTimeout mul64
    rw [h1800]; decide
  have hg1 : ¬ 1801000000 % u64 < s.last_seen_unix_micros := by
    rw [hls]; decide
  have hg2 : ¬ 1811000000 % u64 < s.last_seen_unix_micros := by
    rw [hls]; decide
  have hd1 : (maybeFlushSession d uid s 1801000000).do_flush = false := by
    rw [maybeFlushSession_do_flush d uid s _ hg1, hls, hto]; decide
  have hd2 : (maybeFlushSession d uid s 1811000000).do_flush = true := by
    rw [maybeFlushSession_do_flush d uid s _ hg2, hls, hto]; decide
  refine ⟨hd1, ?_, hd2, ?_⟩
  · rw [maybeFlushSession_count_session, hd1]; rfl
  · rw [maybeFlushSession_count_session, hd2]; rfl

/-- C20, amended, at the session of the scenario and the example configuration. -/
theorem scenario_flush_witness :
    (exampleDecls.kSessionIdleTimeoutSeconds = 1800 ∧
      (scenarioSession true).last_seen_unix_micros = 10000000) ∧
      (maybeFlushSession exampleDecls "u1" (scenarioSession true) 1801000000).do_flush = false ∧
      (maybeFlushSession exampleDecls "u1" (scenarioSession true) 1801000000).out.countP
        Emission.isSession = 0 ∧
      (maybeFlushSession exampleDecls "u1" (scenarioSession true) 1811000000).do_flush = true ∧
      (maybeFlushSession exampleDecls "u1" (scenarioSession true) 1811000000).out.countP
        Emission.isSession = 1 :=
  ⟨⟨rfl, rfl⟩,
    (scenario_flush exampleDecls "u1" (scenarioSession true)).2.2.2.2.2 rfl rfl⟩

/-! ## Session registry: theorems -/

/-- C21. `findOrCreateSession`: when a session is stored under `uid`, the call returns
that session and leaves the service as it is, so the tenant stored in the session is not
replaced by the tenant passed. Otherwise it appends exactly one entry for `uid`, a session
with the tenant passed, no queries, no item visits and `last_seen = 0`, and returns it. In
both cases the sessions of all other uids, the stream clock and the output are
unchanged. -/
theorem findOrCreateSession_spec (svc : LogJoinService) (customer uid : String) :
    (∀ session : TrackedSession, svc.sessions_.lookup uid = some session →
        findOrCreateSession svc customer uid = (svc, session)) ∧
      (svc.sessions_.lookup uid = none →
        findOrCreateSession svc customer uid =
          ({ svc with
              sessions_ := svc.sessions_ ++
                [(uid, { customer := customer, queries := [], item_visits := [],
                         last_seen_unix_micros := 0 })] },
            { customer := customer, queries := [], item_visits := [],
              last_seen_unix_micros := 0 }) ∧
        (findOrCreateSession svc customer uid).1.sessions_.length =
          svc.sessions_.length + 1 ∧
        (findOrCreateSession svc customer uid).1.sessions_.lookup uid =
          some { customer := customer, queries := [], item_visits := [],
                 last_seen_unix_micros := 0 }) ∧
      (∀ uid2 : String, uid2 ≠ uid →
        (findOrCreateSession svc customer uid).1.sessions_.lookup uid2 =
          svc.sessions_.lookup uid2) ∧
      (findOrCreateSession svc customer uid).1.stream_clock_ = svc.stream_clock_ ∧
      (findOrCreateSession svc customer uid).1.out_ = svc.out_ := by
  refine ⟨?_, ?_, ?_, ?_, ?_⟩
  · intro session h
    unfold findOrCreateSession
    rw [h]
  · intro h
    have heq : findOrCreateSession svc customer uid =
        ({ svc with
            sessions_ := svc.sessions_ ++
              [(uid, { customer := customer, queries := [], item_visits := [],
                       last_seen_unix_micros := 0 })] },
          { customer := customer, queries := [], item_visits := [],
            last_seen_unix_micros := 0 }) := by
      unfold findOrCreateSession
      rw [h]
      rfl
    refine ⟨heq, ?_, ?_⟩
    · rw [heq]; simp
    · rw [heq]; exact lookup_append_new uid _ svc.sessions_ h
  · intro uid2 hne
    unfold findOrCreateSession
    cases h : svc.sessions_.lookup uid with
    | none => exact lookup_append_ne uid uid2 _ svc.sessions_ hne
    | some session => rfl
  · unfold findOrCreateSession
    cases svc.sessions_.lookup uid <;> rfl
  · unfold findOrCreateSession
    cases svc.sessions_.lookup uid <;> rfl

/-- C21 at `idleService`: the session of `u1`, of tenant `dawanda`, is returned as it is
for a call with another tenant; for `u2` a fresh session is appended. -/
theorem findOrCreateSession_spec_witness :
    (idleService.sessions_.lookup "u1" = some idleSession ∧
      idleService.sessions_.lookup "u2" = none) ∧
      findOrCreateSession idleService "other" "u1" = (idleService, idleSession) ∧
      (findOrCreateSession idleService "other" "u2").1.sessions_.lookup "u2" =
        some { customer := "other", queries := [], item_visits := [],
               last_seen_unix_micros := 0 } :=
  ⟨⟨by decide, by decide⟩,
    (findOrCreateSession_spec idleService "other" "u1").1 idleSession (by decide),
    ((findOrCreateSession_spec idleService "other" "u2").2.1 (by decide)).2.2⟩

/-! ## Documented event types -/

/-- C22, at the failing inputs. The documentation of the pixel parameters gives the event
type `e` the format `{q,v,c,u}`. On a fresh service the cart event
`v=1&c=f97650cb~b28c61d5c&e=c&s=1` and the user event `v=1&c=f97650cb~b28c61d5c&e=u&lgn=t`
make `insertLogline` raise the `kParseError` `invalid e param`; the same line with `e=q` and
with `e=v` returns. -/
theorem insertLogline_rejects_cart_and_user_events :
    insertLogline exampleLineDecls LogJoinService.new "dawanda" 0
        "v=1&c=f97650cb~b28c61d5c&e=c&s=1" =
      LineResult.raised ErrorKind.kParseError "invalid e param" LogJoinService.new ∧
    insertLogline exampleLineDecls LogJoinService.new "dawanda" 0
        "v=1&c=f97650cb~b28c61d5c&e=u&lgn=t" =
      LineResult.raised ErrorKind.kParseError "invalid e param" LogJoinService.new ∧
    insertLogline exampleLineDecls LogJoinService.new "dawanda" 0
        "v=1&c=f97650cb~b28c61d5c&e=q" =
      LineResult.returned
        (insertQuery LogJoinService.new "dawanda" "f97650cb" "b28c61d5c"
          { time := 0, flushed := false,
            attrs := [("v", "1"), ("c", "f97650cb~b28c61d5c"), ("e", "q")] }) ∧
    insertLogline exampleLineDecls LogJoinService.new "dawanda" 0
        "v=1&c=f97650cb~b28c61d5c&e=v" =
      LineResult.returned
        (insertItemVisit LogJoinService.new "dawanda" "f97650cb" "b28c61d5c"
          { time := 0, attrs := [("v", "1"), ("c", "f97650cb~b28c61d5c"), ("e", "v")] }) := by
  refine ⟨by decide, by decide, by decide, by decide⟩

/-! ## Round trip of the identity split -/

theorem split_at_indexOf (a : Char) (l : List Char) (h : a ∈ l) :
    l = l.take (l.indexOf a) ++ a :: l.drop (l.indexOf a + 1) ∧ a ∉ l.take (l.indexOf a) := by
  induction l with
  | nil => simp at h
  | cons b l ih =>
    by_cases hb : b = a
    · subst hb
      rw [List.indexOf_cons_self]
      simp
    · have hmem : a ∈ l := by
        rcases List.mem_cons.mp h with h1 | h1
        · exact absurd h1.symm hb
        · exact h1
      obtain ⟨h1, h2⟩ := ih hmem
      rw [List.indexOf_cons_ne l hb]
      constructor
      · simp only [List.take_succ_cons, List.drop_succ_cons, List.cons_append]
        rw [← h1]
      · simp only [List.take_succ_cons, List.mem_cons, not_or]
        exact ⟨fun h3 => hb h3.symm, h2⟩

theorem find_some (c : String) (c_s : Nat) (h : find c '~' = some c_s) :
    c_s = c.toList.indexOf '~' ∧ '~' ∈ c.toList := by
  unfold find at h
  split_ifs at h with hlt
  simp only [Option.some.injEq] at h
  exact ⟨h.symm, List.indexOf_lt_length.mp hlt⟩

theorem find_some_split (c : String) (c_s : Nat) (h : find c '~' = some c_s) :
    c.toList = c.toList.take c_s ++ '~' :: c.toList.drop (c_s + 1) ∧
      '~' ∉ c.toList.take c_s ∧ (c.toList.take c_s).length = c_s := by
  obtain ⟨h1, h2⟩ := find_some c c_s h
  obtain ⟨h3, h4⟩ := split_at_indexOf '~' c.toList h2
  rw [← h1] at h3 h4
  refine ⟨h3, h4, ?_⟩
  rw [List.length_take]
  have hlt : c_s < c.toList.length := by
    rw [h1]; exact List.indexOf_lt_length.mpr h2
  omega

theorem substr_halves (c : String) (c_s : Nat) (h : find c '~' = some c_s) :
    substr c 0 c_s = String.mk (c.toList.take c_s) ∧
      substr c (c_s + 1) (c.length - c_s - 1) = String.mk (c.toList.drop (c_s + 1)) := by
  obtain ⟨h1, -, h3⟩ := find_some_split c c_s h
  have hu := substr_uid c (c.toList.take c_s) (c.toList.drop (c_s + 1)) h1
  have he := substr_eid c (c.toList.take c_s) (c.toList.drop (c_s + 1)) h1
  rw [h3] at hu he
  exact ⟨hu, he⟩

/-- C24. Identity split round trip: let `c` be a value of the parameter `c` that
`insertLogline` accepts, that is, `c.find("~")` gives a position `c_s` and neither
`uid = c.substr(0, c_s)` nor `eid = c.substr(c_s + 1, c.length() - c_s - 1)` is empty. Then
`uid + "~" + eid = c`, the uid contains no `~` (the split is at the first one, further ones
stay in the event id), both are non-empty, and these two strings are the uid and the event
id that the rest of `insertLogline` works with. -/
theorem identity_split_round_trip (c : String) (c_s : Nat) (hfind : find c '~' = some c_s)
    (hne : ¬ ((substr c 0 c_s).length = 0 ∨
      (substr c (c_s + 1) (c.length - c_s - 1)).length = 0)) :
    substr c 0 c_s ++ "~" ++ substr c (c_s + 1) (c.length - c_s - 1) = c ∧
      '~' ∉ (substr c 0 c_s).toList ∧
      substr c 0 c_s ≠ "" ∧
      substr c (c_s + 1) (c.length - c_s - 1) ≠ "" ∧
      (∀ (d : LineDecls) (svc : LogJoinService) (customer : String) (time : Nat)
          (params : ParamList), getParam params "c" = some c →
        decodeAndInsert d svc customer time params =
          match getParam params "e" with
          | none => LineResult.raised ErrorKind.kParseError "e param is missing" svc
          | some evtype =>
            match evtype.toList with
            | [ch] =>
              processEvent d svc customer time params (substr c 0 c_s)
                (substr c (c_s + 1) (c.length - c_s - 1)) ch
            | _ => LineResult.raised ErrorKind.kParseError "e param is missing" svc) := by
  obtain ⟨h1, h2, -⟩ := find_some_split c c_s hfind
  obtain ⟨hu, he⟩ := substr_halves c c_s hfind
  have hne2 := hne
  rw [not_or] at hne2
  refine ⟨?_, ?_, ?_, ?_, ?_⟩
  · rw [hu, he]
    apply String.ext
    simp only [String.data_append]
    have h3 : c.data = c.toList := rfl
    rw [h3, List.append_assoc]
    exact h1.symm
  · rw [hu]; exact h2
  · intro h0
    apply hne2.1
    rw [h0]; rfl
  · intro h0
    apply hne2.2
    rw [h0]; rfl
  · intro d svc customer time params hc
    unfold decodeAndInsert
    rw [hc]
    simp only [hfind]
    rw [if_neg hne]

/-- C24 at the value `a~b~c`: the uid is `a` and the event id is `b~c`. -/
theorem identity_split_round_trip_witness :
    (find "a~b~c" '~' = some 1 ∧
      ¬ ((substr "a~b~c" 0 1).length = 0 ∨
        (substr "a~b~c" (1 + 1) (("a~b~c" : String).length - 1 - 1)).length = 0)) ∧
      substr "a~b~c" 0 1 ++ "~" ++ substr "a~b~c" (1 + 1) (("a~b~c" : String).length - 1 - 1) =
        "a~b~c" ∧
      substr "a~b~c" 0 1 = "a" ∧
      substr "a~b~c" (1 + 1) (("a~b~c" : String).length - 1 - 1) = "b~c" :=
  ⟨⟨by decide, by decide⟩,
    (identity_split_round_trip "a~b~c" 1 (by decide) (by decide)).1,
    by decide, by decide⟩

/-! ## Timeout arithmetic -/

/-- C25. No unsigned wrap-around: let every query of the session have `time <= last_seen`,
and let the `uint64_t` stream time `t` pass the guard of `maybeFlushSession`. Then
`t - last_seen` and every `t - query.time`, computed modulo `2 ^ 64`, equal the true
differences, which are not negative, and the test of the loop is the test on the true
difference. The absent-id branch of `insertQuery` keeps that precondition. Without it the
difference wraps: for `futureQuerySession`, whose query has time 10 s, the evaluation at
5 s passes the guard, computes `2 ^ 64 - 5000000` for the query and marks it flushed. -/
theorem no_wrap_in_timeouts (d : Decls) (s : TrackedSession) (t : Nat) (ht : t < u64)
    (hinv : ∀ p ∈ s.queries, p.2.time ≤ s.last_seen_unix_micros)
    (hguard : ¬ t % u64 < s.last_seen_unix_micros) :
    (s.last_seen_unix_micros ≤ t ∧
        sub64 t s.last_seen_unix_micros = t - s.last_seen_unix_micros) ∧
      (∀ p ∈ s.queries, p.2.time ≤ t ∧ sub64 t p.2.time = t - p.2.time ∧
        (queryDue d t p.2 = true ↔
          p.2.flushed = false ∧ t - p.2.time > d.maxQueryClickDelay)) ∧
      (∀ (eid : String) (query : TrackedQuery), s.queries.lookup eid = none →
        ∀ p ∈ (s.insertQuery eid query).queries,
          p.2.time ≤ (s.insertQuery eid query).last_seen_unix_micros) ∧
      ((∀ p ∈ futureQuerySession.queries, p.2.time > 5000000) ∧
        ¬ 5000000 % u64 < futureQuerySession.last_seen_unix_micros ∧
        sub64 5000000 10000000 = 2 ^ 64 - 5000000 ∧
        flushedOf (maybeFlushSession exampleDecls "u1" futureQuerySession 5000000).session "q1"
          = some true ∧
        (maybeFlushSession exampleDecls "u1" futureQuerySession 5000000).out =
          [Emission.recordJoinedQuery "dawanda" "u1" "q1"
            { time := 10000000, flushed := true, attrs := [] }]) := by
  have hls : s.last_seen_unix_micros ≤ t := by
    rw [Nat.mod_eq_of_lt ht] at hguard
    omega
  refine ⟨⟨hls, sub64_eq t _ ht hls⟩, ?_, ?_, ?_⟩
  · intro p hp
    have hpt : p.2.time ≤ t := Nat.le_trans (hinv p hp) hls
    refine ⟨hpt, sub64_eq t _ ht hpt, ?_⟩
    unfold queryDue
    rw [sub64_eq t _ ht hpt]
    simp
  · intro eid query habs p hp
    rw [TrackedSession.insertQuery_absent s eid query habs] at hp ⊢
    show p.2.time ≤ max s.last_seen_unix_micros query.time
    rcases List.mem_append.mp hp with h1 | h1
    · exact Nat.le_trans (hinv p h1) (Nat.le_max_left _ _)
    · rw [List.mem_singleton.mp h1]
      exact Nat.le_max_right _ _
  · refine ⟨by decide, by decide, by decide, by decide, by decide⟩

/-- C25 at `oneQuerySession` (query of time 0, last seen at 10 s), evaluated at 901 s. -/
theorem no_wrap_in_timeouts_witness :
    (901000000 < u64 ∧
      (∀ p ∈ oneQuerySession.queries, p.2.time ≤ oneQuerySession.last_seen_unix_micros) ∧
      ¬ 901000000 % u64 < oneQuerySession.last_seen_unix_micros) ∧
      oneQuerySession.last_seen_unix_micros ≤ 901000000 ∧
      sub64 901000000 oneQuerySession.last_seen_unix_micros =
        901000000 - oneQuerySession.last_seen_unix_micros :=
  ⟨⟨by decide, by decide, by decide⟩,
    (no_wrap_in_timeouts exampleDecls oneQuerySession 901000000 (by decide) (by decide)
      (by decide)).1⟩

/-! ## Frame of the flush decision -/

theorem queryStates_markQueries (d : Decls) (t : Nat) (qs : List (String × TrackedQuery)) :
    queryStates (markQueries d t qs).1 =
      qs.map (fun p => (p.1, p.2.time, p.2.flushed || queryDue d t p.2)) := by
  rw [markQueries_fst, queryStates, List.map_map]
  apply List.map_congr_left
  intro p _
  by_cases hq : queryDue d t p.2 = true
  · simp [hq]
  · simp [hq]

theorem updateFrame_update : UpdateFrame TrackedSession.update :=
  fun _ => ⟨rfl, rfl, rfl, rfl⟩

end cm
